import Mathlib

/-!
Shallow embedding of the force-directed label-placement engine of
`pathmap` (the richest `LabelManager` variant), together with theorems
settling the specification claims about it.

Conventions of the embedding:
* JavaScript numbers are modelled as real numbers (`ℝ`); the geometry is
  exact, so the IEEE-754 artefacts `NaN`/`Infinity` do not exist in the
  model.  The single place where the source stores `Infinity`
  (`previousEnergy` before the first tick) is modelled with `Option ℝ`,
  `none` standing for `Infinity` (for every finite `x`,
  `|x - Infinity| < ε` is false, which is exactly how `none` behaves
  below).
* `L.latLng` values (fields `lat`/`lng`) and raw vertex records (fields
  `lat`/`lon`) are kept as two distinct structures, as in the source.
* The string key `` `${polygonId}-${index}` `` is modelled as the pair
  `(polygonId, index)`; for natural-number polygon ids (the application
  uses a `nextPolygonId` counter) the string is uniquely determined by
  the pair and vice versa.
* The derived display string `` `${lat.toFixed(6)}, ${lon.toFixed(6)}` ``
  is modelled by the pair of numbers that determines it; its character
  length (which only feeds the width estimate) is taken to be the
  18 characters of a typical `x.xxxxxx, y.yyyyyy` rendering.  No claim
  depends on the width value.
* Rendering side effects (markers, leader lines, debug overlays) are
  outside the model; the two completion callbacks of the scheduler
  (polygon-name refresh and debug refresh) are modelled as event flags.
-/

noncomputable section

open Real

/-- A Leaflet `L.latLng` value. -/
structure LatLng where
  lat : ℝ
  lng : ℝ

/-- A raw vertex record `{ lat, lon }` as stored in polygon hulls. -/
structure Pt where
  lat : ℝ
  lon : ℝ

/-- A 2-vector used for forces, velocities and previous positions
(fields named `lat`/`lon` as in the source's `{ lat, lon }` records). -/
structure Vec where
  lat : ℝ
  lon : ℝ

instance : Inhabited Vec := ⟨⟨0, 0⟩⟩

instance : Add Vec := ⟨fun a b => ⟨a.lat + b.lat, a.lon + b.lon⟩⟩

instance : Neg Vec := ⟨fun a => ⟨-a.lat, -a.lon⟩⟩

instance : Sub Vec := ⟨fun a b => ⟨a.lat - b.lat, a.lon - b.lon⟩⟩

instance : Zero Vec := ⟨⟨0, 0⟩⟩

/-- Viewport bounds as returned by `map.getBounds()`. -/
structure Bounds where
  south : ℝ
  north : ℝ
  west : ℝ
  east : ℝ

/-- Leaflet `bounds.contains(latlng)` (inclusive on all four sides). -/
def Bounds.containsB (b : Bounds) (p : LatLng) : Bool :=
  decide (b.south ≤ p.lat) && decide (p.lat ≤ b.north) &&
    decide (b.west ≤ p.lng) && decide (p.lng ≤ b.east)

/-- `bounds.getCenter().lat`. -/
def Bounds.centerLat (b : Bounds) : ℝ := (b.south + b.north) / 2

/-- The host map view: viewport bounds plus current zoom. -/
structure MapView where
  bounds : Bounds
  zoom : ℕ

/-- `156543.03392 * Math.cos(latDeg * Math.PI / 180) / Math.pow(2, zoom)`. -/
def metersPerPixel (latDeg : ℝ) (zoom : ℕ) : ℝ :=
  156543.03392 * Real.cos (latDeg * Real.pi / 180) / 2 ^ zoom

/-- `pixelsToDegrees = (pixels) => (metersPerPixel * pixels) / 111320`,
with the meters-per-pixel factor passed in by the caller. -/
def pixelsToDegrees (mpp : ℝ) (pixels : ℝ) : ℝ := mpp * pixels / 111320

/-- The tunable settings object from the `LabelManager` constructor. -/
structure Settings where
  initialOffset : ℝ
  minVertexDistance : ℝ
  springStrength : ℝ
  minLabelSpacing : ℝ
  iterations : ℕ
  damping : ℝ
  maxLabelDistance : ℝ
  minVertexAngle : ℝ
  eqVertex : ℝ
  eqLabel : ℝ
  eqCenter : ℝ
  eqFalloff : ℝ

/-- The default settings values of the constructor. -/
def defaultSettings : Settings where
  initialOffset := 15
  minVertexDistance := 30
  springStrength := 0.1
  minLabelSpacing := 40
  iterations := 200
  damping := 0.6
  maxLabelDistance := 80
  minVertexAngle := 10
  eqVertex := 20
  eqLabel := 30
  eqCenter := 100
  eqFalloff := 3

/-- One label record, as pushed by `setLabels`/`updateAllLabels`. -/
structure Label where
  key : ℕ × ℕ
  polygonId : ℕ
  vertexIndex : ℕ
  vertexLatLng : LatLng
  labelLatLng : LatLng
  text : ℝ × ℝ
  width : ℝ
  height : ℝ
  polygonVertices : List Pt
  manuallyPositioned : Bool

instance : Inhabited Label :=
  ⟨⟨(0, 0), 0, 0, ⟨0, 0⟩, ⟨0, 0⟩, (0, 0), 0, 0, [], false⟩⟩

/-- `estimateLabelWidth(text)`: `text.length * 7 + 16`; the display
string's length is not modelled (see the header comment), so the length
of the typical 18-character rendering is used. -/
def estimateLabelWidth (_text : ℝ × ℝ) : ℝ := 18 * 7 + 16

/-! ## Geometry utilities -/

/-- `calculateVertexAngle(vertices, index)`: interior angle (degrees) at
`vertices[index]` formed by its ring-adjacent neighbours; returns `180`
when either adjacent edge has length zero. -/
def calculateVertexAngle (vertices : List Pt) (index : ℕ) : ℝ :=
  let n := vertices.length
  let prev := vertices.getD (((index : ℤ) - 1 + n) % n).toNat ⟨0, 0⟩
  let curr := vertices.getD index ⟨0, 0⟩
  let next := vertices.getD ((index + 1) % n) ⟨0, 0⟩
  let v1x := prev.lon - curr.lon
  let v1y := prev.lat - curr.lat
  let v2x := next.lon - curr.lon
  let v2y := next.lat - curr.lat
  let dot := v1x * v2x + v1y * v2y
  let mag1 := Real.sqrt (v1x * v1x + v1y * v1y)
  let mag2 := Real.sqrt (v2x * v2x + v2y * v2y)
  if mag1 = 0 ∨ mag2 = 0 then 180
  else
    let angleRad := Real.arccos (max (-1) (min 1 (dot / (mag1 * mag2))))
    angleRad * (180 / Real.pi)

/-- An axis-aligned box with `left/right/bottom/top`, over any ordered
field (used at `ℝ` by the solver; exact test cases are run at `ℚ`). -/
structure Box (α : Type) where
  left : α
  right : α
  bottom : α
  top : α

/-- `lineIntersectsBox(y1, x1, y2, x2, box)`: Liang-Barsky test of the
segment `(x1,y1)-(x2,y2)` against `box`.  Direct translation of the
source, with the two early `return false` slab cases threaded through
`Option`. -/
def lineIntersectsBox {α : Type} [LinearOrderedField α]
    (y1 x1 y2 x2 : α) (box : Box α) : Bool :=
  let dx := x2 - x1
  let dy := y2 - y1
  -- Quick reject: line completely outside the box on one side
  if (x1 < box.left ∧ x2 < box.left) ∨ (x1 > box.right ∧ x2 > box.right) ∨
      (y1 < box.bottom ∧ y2 < box.bottom) ∨ (y1 > box.top ∧ y2 > box.top) then
    false
  -- Accept if either endpoint is inside the box
  else if (x1 ≥ box.left ∧ x1 ≤ box.right ∧ y1 ≥ box.bottom ∧ y1 ≤ box.top) ∨
      (x2 ≥ box.left ∧ x2 ≤ box.right ∧ y2 ≥ box.bottom ∧ y2 ≤ box.top) then
    true
  else
    let t0 : α := 0
    let t1 : α := 1
    -- Left edge
    let step1 : Option (α × α) :=
      if dx ≠ 0 then
        let t := (box.left - x1) / dx
        if dx < 0 then some (t0, if t < t1 then t else t1)
        else some ((if t > t0 then t else t0), t1)
      else if x1 < box.left ∨ x1 > box.right then none
      else some (t0, t1)
    match step1 with
    | none => false
    | some (t0, t1) =>
      -- Right edge
      let (t0, t1) :=
        if dx ≠ 0 then
          let t := (box.right - x1) / dx
          if dx < 0 then ((if t > t0 then t else t0), t1)
          else (t0, if t < t1 then t else t1)
        else (t0, t1)
      -- Bottom edge
      let step2 : Option (α × α) :=
        if dy ≠ 0 then
          let t := (box.bottom - y1) / dy
          if dy < 0 then some (t0, if t < t1 then t else t1)
          else some ((if t > t0 then t else t0), t1)
        else if y1 < box.bottom ∨ y1 > box.top then none
        else some (t0, t1)
      match step2 with
      | none => false
      | some (t0, t1) =>
        -- Top edge
        let (t0, t1) :=
          if dy ≠ 0 then
            let t := (box.top - y1) / dy
            if dy < 0 then ((if t > t0 then t else t0), t1)
            else (t0, if t < t1 then t else t1)
          else (t0, t1)
        decide (t0 ≤ t1)

/-! ## Force Solver (`simulateStep`)

The step works on the mutable triple `(labels, previousPositions,
velocities)` of the manager; it is modelled as a pure function from a
`SimState` to a `SimState` paired with the returned kinetic energy.
The force accumulation loops of the source commute (they only add into
the per-label accumulator), so the net force on a label is the sum of
the five contribution functions below, with the pairwise contributions
signed exactly as in the source (`forces[i] -= f; forces[j] += f` for
`i < j`). -/

/-- Mutable simulation data of the manager:
`this.labels`, `this.previousPositions`, `this.velocities`. -/
structure SimState where
  labels : List Label
  previousPositions : List Vec
  velocities : List Vec

/-- The meters-per-pixel factor used inside `simulateStep` (note the
source uses `Math.cos(0)` here, not the viewport's centre latitude). -/
def mppSim (zoom : ℕ) : ℝ := metersPerPixel 0 zoom

/-- All vertices of all labels' ring snapshots (the `allVertices`
array built at the top of `simulateStep`). -/
def allVerticesOf (labels : List Label) : List Pt :=
  labels.flatMap (·.polygonVertices)

/-- Vertex padding repulsion accumulated on one label (first force
loop of `simulateStep`). -/
def vertexRepForce (mpp : ℝ) (sett : Settings) (allVertices : List Pt)
    (label : Label) : Vec :=
  allVertices.foldl (fun acc vertex =>
    let dx := label.labelLatLng.lng - vertex.lon
    let dy := label.labelLatLng.lat - vertex.lat
    let dist := Real.sqrt (dx * dx + dy * dy)
    let isOwnVertex := |label.vertexLatLng.lat - vertex.lat| < 0.000001 ∧
      |label.vertexLatLng.lng - vertex.lon| < 0.000001
    if isOwnVertex then acc
    else
      let minDist := pixelsToDegrees mpp 15
      if dist < minDist ∧ dist > 0.00001 then
        let repulsionStrength := pixelsToDegrees mpp sett.eqVertex
        let forceMagnitude := repulsionStrength / dist ^ sett.eqFalloff
        ⟨acc.lat + (dy / dist) * forceMagnitude,
         acc.lon + (dx / dist) * forceMagnitude⟩
      else acc) 0

/-- The pair force `(fy, fx)` computed for an overlapping pair
`(label1, label2) = (labels[i], labels[j])`, `i < j`; zero when the
buffered bounding boxes do not overlap. -/
def pairForce (mpp : ℝ) (sett : Settings) (label1 label2 : Label) : Vec :=
  let w1 := pixelsToDegrees mpp label1.width / 2
  let h1 := pixelsToDegrees mpp label1.height / 2
  let w2 := pixelsToDegrees mpp label2.width / 2
  let h2 := pixelsToDegrees mpp label2.height / 2
  let buffer := pixelsToDegrees mpp 5
  let box1 : Box ℝ := ⟨label1.labelLatLng.lng - w1 - buffer,
    label1.labelLatLng.lng + w1 + buffer,
    label1.labelLatLng.lat - h1 - buffer,
    label1.labelLatLng.lat + h1 + buffer⟩
  let box2 : Box ℝ := ⟨label2.labelLatLng.lng - w2 - buffer,
    label2.labelLatLng.lng + w2 + buffer,
    label2.labelLatLng.lat - h2 - buffer,
    label2.labelLatLng.lat + h2 + buffer⟩
  let overlapping := ¬(box1.right < box2.left ∨ box1.left > box2.right ∨
    box1.top < box2.bottom ∨ box1.bottom > box2.top)
  if overlapping then
    let dx := label2.labelLatLng.lng - label1.labelLatLng.lng
    let dy := label2.labelLatLng.lat - label1.labelLatLng.lat
    let centerDist := Real.sqrt (dx * dx + dy * dy)
    let overlapX := (w1 + w2 + buffer * 2) - |dx|
    let overlapY := (h1 + h2 + buffer * 2) - |dy|
    let forceMultiplier := sett.eqLabel / 30
    let fx := if |dx| > 0.00001 then
        (if dx > 0 then 1 else -1) * overlapX * 0.5 * forceMultiplier
      else overlapX * 0.5 * forceMultiplier
    let fy := if |dy| > 0.00001 then
        (if dy > 0 then 1 else -1) * overlapY * 0.5 * forceMultiplier
      else overlapY * 0.5 * forceMultiplier
    if centerDist > 0.00001 then
      let penetrationForce := pixelsToDegrees mpp sett.eqLabel /
        (centerDist + pixelsToDegrees mpp 2)
      ⟨fy + (dy / centerDist) * penetrationForce,
       fx + (dx / centerDist) * penetrationForce⟩
    else
      ⟨fy + pixelsToDegrees mpp 10, fx + pixelsToDegrees mpp 10⟩
  else 0

/-- Net pairwise repulsion on `labels[i]`: the source subtracts the pair
force at the lower index of each pair and adds it at the higher one. -/
def pairNetForce (mpp : ℝ) (sett : Settings) (labels : List Label)
    (i : ℕ) : Vec :=
  (List.range labels.length).foldl (fun acc j =>
    if i < j then acc - pairForce mpp sett (labels.getD i default) (labels.getD j default)
    else if j < i then acc + pairForce mpp sett (labels.getD j default) (labels.getD i default)
    else acc) 0

/-- Elastic spring force towards the label's own vertex (odd vertex
indices are twice as springy). -/
def springForce (sett : Settings) (label : Label) : Vec :=
  let dx := label.vertexLatLng.lng - label.labelLatLng.lng
  let dy := label.vertexLatLng.lat - label.labelLatLng.lat
  let dist := Real.sqrt (dx * dx + dy * dy)
  if dist > 0.00001 then
    let springMultiplier : ℝ := if label.vertexIndex % 2 = 1 then 2 else 1
    let effectiveSpring := sett.springStrength * springMultiplier
    ⟨dy * effectiveSpring, dx * effectiveSpring⟩
  else 0

/-- Repulsion away from the owning polygon's centre (mean of the ring
snapshot), one falloff power weaker than the vertex repulsion. -/
def centerRepForce (mpp : ℝ) (sett : Settings) (label : Label) : Vec :=
  if label.polygonVertices.length > 0 then
    let centerLat := (label.polygonVertices.map (·.lat)).sum /
      label.polygonVertices.length
    let centerLon := (label.polygonVertices.map (·.lon)).sum /
      label.polygonVertices.length
    let centerDx := label.labelLatLng.lng - centerLon
    let centerDy := label.labelLatLng.lat - centerLat
    let centerDist := Real.sqrt (centerDx * centerDx + centerDy * centerDy)
    if centerDist > 0.00001 then
      let repulsionStrength := pixelsToDegrees mpp sett.eqCenter
      let forceMagnitude := repulsionStrength / centerDist ^ (sett.eqFalloff - 1)
      ⟨(centerDy / centerDist) * forceMagnitude,
       (centerDx / centerDist) * forceMagnitude⟩
    else 0
  else 0

/-- Leader-line avoidance on `labels[i]`: for every other label `j`
whose anchor→position segment intersects `labels[i]`'s buffered box,
push `labels[i]` away from the segment midpoint. -/
def leaderForce (mpp : ℝ) (labels : List Label) (i : ℕ) : Vec :=
  (List.range labels.length).foldl (fun acc j =>
    if i = j then acc
    else
      let label := labels.getD i default
      let otherLabel := labels.getD j default
      let w := pixelsToDegrees mpp label.width / 2
      let h := pixelsToDegrees mpp label.height / 2
      let buffer := pixelsToDegrees mpp 2
      let labelBox : Box ℝ := ⟨label.labelLatLng.lng - w - buffer,
        label.labelLatLng.lng + w + buffer,
        label.labelLatLng.lat - h - buffer,
        label.labelLatLng.lat + h + buffer⟩
      if lineIntersectsBox otherLabel.vertexLatLng.lat otherLabel.vertexLatLng.lng
          otherLabel.labelLatLng.lat otherLabel.labelLatLng.lng labelBox then
        let lineMidLat := (otherLabel.vertexLatLng.lat + otherLabel.labelLatLng.lat) / 2
        let lineMidLng := (otherLabel.vertexLatLng.lng + otherLabel.labelLatLng.lng) / 2
        let pushDx := label.labelLatLng.lng - lineMidLng
        let pushDy := label.labelLatLng.lat - lineMidLat
        let pushDist := Real.sqrt (pushDx * pushDx + pushDy * pushDy)
        if pushDist > 0.00001 then
          let pushStrength := pixelsToDegrees mpp 3
          ⟨acc.lat + (pushDy / pushDist) * pushStrength,
           acc.lon + (pushDx / pushDist) * pushStrength⟩
        else acc
      else acc) 0

/-- Net force accumulated on `labels[i]` over all five force loops. -/
def netForce (mpp : ℝ) (sett : Settings) (labels : List Label) (i : ℕ) : Vec :=
  vertexRepForce mpp sett (allVerticesOf labels) (labels.getD i default) +
    pairNetForce mpp sett labels i +
    springForce sett (labels.getD i default) +
    centerRepForce mpp sett (labels.getD i default) +
    leaderForce mpp labels i

/-- The raw Verlet update before any constraint:
`(velLat, velLng, newLat, newLng)`. -/
def verletRaw (sett : Settings) (force : Vec) (label : Label) (prev : Vec) :
    ℝ × ℝ × ℝ × ℝ :=
  let currentLat := label.labelLatLng.lat
  let currentLng := label.labelLatLng.lng
  let velLat := (currentLat - prev.lat) * sett.damping
  let velLng := (currentLng - prev.lon) * sett.damping
  let forceScale : ℝ := 0.15
  (velLat, velLng, currentLat + velLat + force.lat * forceScale,
    currentLng + velLng + force.lon * forceScale)

/-- Post-integration clamp of the position to the maximum distance from
the label's vertex; returns the clamped `(lat, lng)`. -/
def anchorClamp (maxDist : ℝ) (anchor : LatLng) (newLat newLng : ℝ) : ℝ × ℝ :=
  let vertexDx := newLng - anchor.lng
  let vertexDy := newLat - anchor.lat
  let vertexDist := Real.sqrt (vertexDx * vertexDx + vertexDy * vertexDy)
  if vertexDist > maxDist then
    let scale := maxDist / vertexDist
    (anchor.lat + vertexDy * scale, anchor.lng + vertexDx * scale)
  else (newLat, newLng)

/-- Clamp of the position into the padded viewport bounds; returns the
clamped `(lat, lng)`. -/
def boundsClamp (bounds : Bounds) (padding paddingHeight : ℝ)
    (newLat newLng : ℝ) : ℝ × ℝ :=
  (max (bounds.south + paddingHeight) (min (bounds.north - paddingHeight) newLat),
   max (bounds.west + padding) (min (bounds.east - padding) newLng))

/-- Integration of one (non-manual) label, following the tail of
`simulateStep`: Verlet update, anchor-distance clamp, viewport clamp,
each with its anti-bounce adjustment of the stored previous position.
Returns the updated label, previous position, and velocity. -/
def integrateLabel (mpp : ℝ) (sett : Settings) (bounds : Bounds)
    (force : Vec) (label : Label) (prev : Vec) : Label × Vec × Vec :=
  let r := verletRaw sett force label prev
  let velLat := r.1
  let velLng := r.2.1
  let newLat := r.2.2.1
  let newLng := r.2.2.2
  let prev1 : Vec := ⟨label.labelLatLng.lat, label.labelLatLng.lng⟩
  let maxDist := pixelsToDegrees mpp sett.maxLabelDistance
  let a := anchorClamp maxDist label.vertexLatLng newLat newLng
  let prev2 : Vec := if a = (newLat, newLng) then prev1
    else ⟨a.1 - velLat * 0.3, a.2 - velLng * 0.3⟩
  let padding := pixelsToDegrees mpp (label.width / 2 + 10)
  let paddingHeight := pixelsToDegrees mpp (label.height / 2 + 10)
  let c := boundsClamp bounds padding paddingHeight a.1 a.2
  let prev3 : Vec := if c.1 ≠ a.1 ∨ c.2 ≠ a.2 then
      ⟨c.1 - velLat * 0.1, c.2 - velLng * 0.1⟩
    else prev2
  ({ label with labelLatLng := ⟨c.1, c.2⟩ }, prev3, ⟨velLat, velLng⟩)

/-- One `simulateStep()` call: returns the updated mutable state and
the total kinetic energy.  Manually positioned labels are skipped
entirely (their stored velocity and previous position are also left
untouched, and they contribute no energy). -/
def simulateStep (m : MapView) (sett : Settings) (s : SimState) :
    SimState × ℝ :=
  let mpp := mppSim m.zoom
  let bounds := m.bounds
  let upd := fun (i : ℕ) (label : Label) =>
    if label.manuallyPositioned then
      (label,
        s.previousPositions.getD i ⟨label.labelLatLng.lat, label.labelLatLng.lng⟩,
        s.velocities.getD i 0, (0 : ℝ))
    else
      let prev := s.previousPositions.getD i
        ⟨label.labelLatLng.lat, label.labelLatLng.lng⟩
      let force := netForce mpp sett s.labels i
      let r := integrateLabel mpp sett bounds force label prev
      (r.1, r.2.1, r.2.2, r.2.2.lat * r.2.2.lat + r.2.2.lon * r.2.2.lon)
  let results := (s.labels.enum).map (fun p => upd p.1 p.2)
  (⟨results.map (·.1), results.map (·.2.1), results.map (·.2.2.1)⟩,
    (results.map (·.2.2.2)).sum)

/-- `(simulateStep ...).1` iterated as a state update, for reasoning
about repeated steps. -/
def simulateStepState (m : MapView) (sett : Settings) (s : SimState) : SimState :=
  (simulateStep m sett s).1

/-! ## Vertex selection and the Label Catalog

`setLabels` and `updateAllLabels` run the same per-vertex body over the
precomputed `vertexData` records; the body is modelled as a fold step
(`processVertexSet` / `processVertexUpdate`, the two variants differing
exactly where the source bodies differ: the `polygonId` conjunct in the
eviction `findIndex`, and the saved-manual-position branch). -/

/-- A polygon as handed to the manager (colour and name feed rendering
only and are not modelled). -/
structure Polygon where
  id : ℕ
  hull : List Pt

/-- One `vertexData` record: `{ vertex, index, angle, inBounds }`. -/
structure VertexDatum where
  vertex : Pt
  index : ℕ
  angle : ℝ
  inBounds : Bool

/-- One entry of the `labeledVertices` working list. -/
structure LabeledVertex where
  lat : ℝ
  lon : ℝ
  angle : ℝ

instance : Inhabited LabeledVertex := ⟨⟨0, 0, 0⟩⟩

/-- The working state threaded through the per-vertex pass:
the `labeledVertices` list and the manager's `labels` array. -/
structure SelState where
  labeledVertices : List LabeledVertex
  labels : List Label

/-- Per-polygon constants captured by the selection pass. -/
structure SelCtx where
  polygonId : ℕ
  mpp : ℝ
  minVertexDistance : ℝ
  initialOffset : ℝ
  minVertexAngle : ℝ
  polyCenterLat : ℝ
  polyCenterLon : ℝ
  ring : List Pt
  savedPositions : ℕ × ℕ → Option LatLng

/-- The label record pushed by the `setLabels` body for an accepted
vertex (this variant has no saved-position branch, and pushes no
`manuallyPositioned` field, i.e. the flag reads back falsy). -/
def mkLabelSet (ctx : SelCtx) (d : VertexDatum) : Label :=
  let key := (ctx.polygonId, d.index)
  let text := (d.vertex.lat, d.vertex.lon)
  let labelWidth := estimateLabelWidth text
  let isAlternate := d.index % 2 = 1
  let verticalOffset := pixelsToDegrees ctx.mpp (if isAlternate then -45 else 45)
  let dx := d.vertex.lon - ctx.polyCenterLon
  let dy := d.vertex.lat - ctx.polyCenterLat
  let dist := Real.sqrt (dx * dx + dy * dy)
  let pos : ℝ × ℝ :=
    if dist > 0.00001 then
      (d.vertex.lat + (dy / dist) * ctx.initialOffset + verticalOffset,
       d.vertex.lon + (dx / dist) * ctx.initialOffset)
    else (d.vertex.lat + verticalOffset, d.vertex.lon + ctx.initialOffset)
  { key := key, polygonId := ctx.polygonId, vertexIndex := d.index,
    vertexLatLng := ⟨d.vertex.lat, d.vertex.lon⟩,
    labelLatLng := ⟨pos.1, pos.2⟩, text := text, width := labelWidth,
    height := 30, polygonVertices := ctx.ring, manuallyPositioned := false }

/-- The label record pushed by the `updateAllLabels` body: a saved
manual position (matched by key) overrides the computed initial
position and marks the label `manuallyPositioned`. -/
def mkLabelUpdate (ctx : SelCtx) (d : VertexDatum) : Label :=
  let key := (ctx.polygonId, d.index)
  let text := (d.vertex.lat, d.vertex.lon)
  let labelWidth := estimateLabelWidth text
  let isAlternate := d.index % 2 = 1
  let verticalOffset := pixelsToDegrees ctx.mpp (if isAlternate then -45 else 45)
  let pos : ℝ × ℝ :=
    match ctx.savedPositions key with
    | some savedPos => (savedPos.lat, savedPos.lng)
    | none =>
      let dx := d.vertex.lon - ctx.polyCenterLon
      let dy := d.vertex.lat - ctx.polyCenterLat
      let dist := Real.sqrt (dx * dx + dy * dy)
      if dist > 0.00001 then
        (d.vertex.lat + (dy / dist) * ctx.initialOffset + verticalOffset,
         d.vertex.lon + (dx / dist) * ctx.initialOffset)
      else (d.vertex.lat + verticalOffset, d.vertex.lon + ctx.initialOffset)
  { key := key, polygonId := ctx.polygonId, vertexIndex := d.index,
    vertexLatLng := ⟨d.vertex.lat, d.vertex.lon⟩,
    labelLatLng := ⟨pos.1, pos.2⟩, text := text, width := labelWidth,
    height := 30, polygonVertices := ctx.ring,
    manuallyPositioned := (ctx.savedPositions key).isSome }

/-- The distance test of the `closeLabeled` search. -/
def closeTo (d : VertexDatum) (minVertexDistance : ℝ)
    (labeled : LabeledVertex) : Bool :=
  decide (Real.sqrt ((d.vertex.lat - labeled.lat) ^ 2 +
    (d.vertex.lon - labeled.lon) ^ 2) < minVertexDistance)

/-- The per-vertex body of `setLabels`: visibility filter, shallow-angle
filter, close-labeled search with sharper-angle eviction, then push. -/
def processVertexSet (ctx : SelCtx) (st : SelState) (d : VertexDatum) :
    SelState :=
  if d.inBounds = false then st
  else if d.angle > 180 - ctx.minVertexAngle then st
  else
    match st.labeledVertices.findIdx? (closeTo d ctx.minVertexDistance) with
    | some k =>
      -- `closeLabeled` is `st.labeledVertices.getD k default`, inlined
      if d.angle < (st.labeledVertices.getD k default).angle then
        ⟨st.labeledVertices.eraseIdx k ++ [⟨d.vertex.lat, d.vertex.lon, d.angle⟩],
          (match st.labels.findIdx? (fun l =>
            decide (l.polygonId = ctx.polygonId) &&
            decide (|l.vertexLatLng.lat - (st.labeledVertices.getD k default).lat| < 0.000001) &&
            decide (|l.vertexLatLng.lng - (st.labeledVertices.getD k default).lon| < 0.000001)) with
          | some li => st.labels.eraseIdx li
          | none => st.labels) ++ [mkLabelSet ctx d]⟩
      else st
    | none =>
      ⟨st.labeledVertices ++ [⟨d.vertex.lat, d.vertex.lon, d.angle⟩],
        st.labels ++ [mkLabelSet ctx d]⟩

/-- The per-vertex body of `updateAllLabels` (no `polygonId` conjunct in
the eviction search; saved-position branch in the label build). -/
def processVertexUpdate (ctx : SelCtx) (st : SelState) (d : VertexDatum) :
    SelState :=
  if d.inBounds = false then st
  else if d.angle > 180 - ctx.minVertexAngle then st
  else
    match st.labeledVertices.findIdx? (closeTo d ctx.minVertexDistance) with
    | some k =>
      -- `closeLabeled` is `st.labeledVertices.getD k default`, inlined
      if d.angle < (st.labeledVertices.getD k default).angle then
        ⟨st.labeledVertices.eraseIdx k ++ [⟨d.vertex.lat, d.vertex.lon, d.angle⟩],
          (match st.labels.findIdx? (fun l =>
            decide (|l.vertexLatLng.lat - (st.labeledVertices.getD k default).lat| < 0.000001) &&
            decide (|l.vertexLatLng.lng - (st.labeledVertices.getD k default).lon| < 0.000001)) with
          | some li => st.labels.eraseIdx li
          | none => st.labels) ++ [mkLabelUpdate ctx d]⟩
      else st
    | none =>
      ⟨st.labeledVertices ++ [⟨d.vertex.lat, d.vertex.lon, d.angle⟩],
        st.labels ++ [mkLabelUpdate ctx d]⟩

/-- The manager state the catalog operations act on: the labels array
and the set of keys the user has manually dragged (markers, leader
lines and the scheduler hand-off are rendering concerns kept outside
this state). -/
structure ManagerState where
  labels : List Label
  manuallyPositioned : List (ℕ × ℕ)

/-- `removeLabels(polygonId)`: drop this polygon's labels (the marker
teardown and the stop-when-empty scheduler call are not modelled). -/
def removeLabels (st : ManagerState) (polygonId : ℕ) : ManagerState :=
  { st with labels := st.labels.filter (fun l => decide (l.polygonId ≠ polygonId)) }

/-- The `vertexData` array: per-vertex angle and visibility. -/
def vertexDataOf (bounds : Bounds) (vertices : List Pt) : List VertexDatum :=
  vertices.enum.map (fun p =>
    ⟨p.2, p.1, calculateVertexAngle vertices p.1,
      bounds.containsB ⟨p.2.lat, p.2.lon⟩⟩)

/-- `setLabels(polygonId, vertices)` (the rendering and the
`startSimulation` hand-off at the end are not modelled). -/
def setLabels (m : MapView) (sett : Settings) (st : ManagerState)
    (polygonId : ℕ) (vertices : List Pt) : ManagerState :=
  let st1 := removeLabels st polygonId
  if vertices.length = 0 then st1
  else
    let bounds := m.bounds
    let mpp := metersPerPixel bounds.centerLat m.zoom
    let minVertexDistance := pixelsToDegrees mpp sett.minVertexDistance
    let initialOffset := pixelsToDegrees mpp sett.initialOffset
    let visibleVertices := vertices.filter (fun v : Pt => bounds.containsB ⟨v.lat, v.lon⟩)
    if visibleVertices.length = 0 then st1
    else
      let polyCenterLat := (visibleVertices.map (·.lat)).sum / (visibleVertices.length : ℝ)
      let polyCenterLon := (visibleVertices.map (·.lon)).sum / (visibleVertices.length : ℝ)
      let ctx : SelCtx := ⟨polygonId, mpp, minVertexDistance, initialOffset,
        sett.minVertexAngle, polyCenterLat, polyCenterLon, vertices, fun _ => none⟩
      let final := (vertexDataOf bounds vertices).foldl (processVertexSet ctx)
        ⟨[], st1.labels⟩
      { st1 with labels := final.labels }

/-- The snapshot of manually positioned label coordinates taken at the
top of `updateAllLabels` (`savedPositions`), as a lookup by key. -/
def savedPositionsOf (st : ManagerState) (k : ℕ × ℕ) : Option LatLng :=
  (st.labels.find? (fun l =>
    st.manuallyPositioned.contains l.key && decide (l.key = k))).map (·.labelLatLng)

/-- `updateAllLabels(polygons)`: snapshot manual positions, clear all
labels, and rerun the selection pass over every polygon with one shared
`labeledVertices` list (rendering and the `startSimulation` hand-off
are not modelled). -/
def updateAllLabels (m : MapView) (sett : Settings) (st : ManagerState)
    (polygons : List Polygon) : ManagerState :=
  let bounds := m.bounds
  let mpp := metersPerPixel bounds.centerLat m.zoom
  let minVertexDistance := pixelsToDegrees mpp sett.minVertexDistance
  let initialOffset := pixelsToDegrees mpp sett.initialOffset
  let final := polygons.foldl (fun (acc : SelState) polygon =>
    if polygon.hull.length = 0 then acc
    else
      let visibleVertices := polygon.hull.filter
        (fun v : Pt => bounds.containsB ⟨v.lat, v.lon⟩)
      if visibleVertices.length = 0 then acc
      else
        let polyCenterLat := (visibleVertices.map (·.lat)).sum / (visibleVertices.length : ℝ)
        let polyCenterLon := (visibleVertices.map (·.lon)).sum / (visibleVertices.length : ℝ)
        let ctx : SelCtx := ⟨polygon.id, mpp, minVertexDistance, initialOffset,
          sett.minVertexAngle, polyCenterLat, polyCenterLon, polygon.hull,
          savedPositionsOf st⟩
        (vertexDataOf bounds polygon.hull).foldl (processVertexUpdate ctx) acc)
    ⟨[], []⟩
  { st with labels := final.labels }

/-! ## Simulation Scheduler

`startSimulation` drives the solver through `requestAnimationFrame`
callbacks.  The scheduler is modelled as an explicit machine: `pending`
records that an animation-frame callback is scheduled, and `tick` fires
it.  Note that the `animate` closure of the source tests only its local
`iterationCount` and `stableCount` — it never reads `isSimulating` —
and `stopSimulation` only resets `isSimulating` (its `clearInterval`
acts on a `simulationInterval` field this variant never sets, so it is
not modelled).  The two completion callbacks (polygon-name refresh and
debug-field refresh) are modelled as the event flags `namesRendered`
and `debugRendered`. -/

/-- `stepsPerFrame` (local constant of `animate`). -/
def stepsPerFrame : ℕ := 3

/-- `stableThreshold` (local constant of `startSimulation`). -/
def stableThreshold : ℕ := 10

/-- Scheduler-machine state: the manager fields touched by
`startSimulation`/`stopSimulation`/`animate`, plus the closure-local
iteration/convergence counters and the pending-frame flag. -/
structure SchedState where
  map : MapView
  settings : Settings
  sim : SimState
  isSimulating : Bool
  pending : Bool
  iterationCount : ℕ
  previousEnergy : Option ℝ
  stableCount : ℕ
  polygonsForNames : Option (List Polygon)
  showDebugFields : Bool
  namesRendered : Bool
  debugRendered : Bool

/-- `startSimulation(polygonsForNames)`: no-op when already running;
otherwise reset the Verlet tracking and convergence counters and
schedule the first animation frame. -/
def startSimulation (s : SchedState) (polygonsForNames : Option (List Polygon)) :
    SchedState :=
  if s.isSimulating then s
  else
    { s with
      isSimulating := true
      iterationCount := 0
      sim := { s.sim with
        velocities := s.sim.labels.map (fun _ => 0)
        previousPositions := s.sim.labels.map (fun label =>
          ⟨label.labelLatLng.lat, label.labelLatLng.lng⟩) }
      previousEnergy := none
      stableCount := 0
      polygonsForNames := polygonsForNames
      pending := true }

/-- `stopSimulation()`: clears the flag (the `clearInterval` call acts
on a field this rAF-based variant never assigns). -/
def stopSimulation (s : SchedState) : SchedState :=
  { s with isSimulating := false }

/-- The inner `for (let i = 0; i < stepsPerFrame && iterationCount <
iterations; i++)` loop of `animate`: runs up to `k` solver steps,
accumulating energy and counting iterations. -/
def runSteps (m : MapView) (sett : Settings) :
    ℕ → ℕ → SimState → ℝ → SimState × ℝ × ℕ
  | 0, count, sim, total => (sim, total, count)
  | k + 1, count, sim, total =>
    if count < sett.iterations then
      let r := simulateStep m sett sim
      runSteps m sett k (count + 1) r.1 (total + r.2)
    else (sim, total, count)

/-- The convergence test of `animate`:
`avgEnergy < 0.0001 || Math.abs(avgEnergy - previousEnergy) < 0.00001`
(`previousEnergy` starts as `Infinity`, modelled by `none`, for which
the second disjunct is false). -/
def energyStable (avgEnergy : ℝ) (previousEnergy : Option ℝ) : Prop :=
  avgEnergy < 0.0001 ∨ match previousEnergy with
    | some p => |avgEnergy - p| < 0.00001
    | none => False

instance (e : ℝ) (p : Option ℝ) : Decidable (energyStable e p) := by
  unfold energyStable
  cases p <;> simp <;> infer_instance

/-- One firing of the scheduled `animate` callback.  If no callback is
pending this is a no-op.  Otherwise: while budget and stability allow,
run a batch of steps, update the convergence counters and reschedule;
else complete — clear `isSimulating`, do not reschedule, and fire the
completion callbacks.  `animate` never consults `isSimulating`. -/
def tick (s : SchedState) : SchedState :=
  if s.pending = false then s
  else if s.iterationCount < s.settings.iterations ∧
      s.stableCount < stableThreshold then
    let r := runSteps s.map s.settings stepsPerFrame s.iterationCount s.sim 0
    let avgEnergy := r.2.1 / (stepsPerFrame : ℝ)
    let stable' := if energyStable avgEnergy s.previousEnergy then
        s.stableCount + 1
      else 0
    { s with
      sim := r.1
      iterationCount := r.2.2
      stableCount := stable'
      previousEnergy := some avgEnergy
      pending := true }
  else
    { s with
      isSimulating := false
      pending := false
      namesRendered := s.namesRendered || s.polygonsForNames.isSome
      debugRendered := s.debugRendered || s.showDebugFields }

/-! ## Static label data

The per-label fields `simulateStep` never writes, bundled so that frame
conditions can be stated as equality of projections. -/

/-- Every `Label` field except the mutable `labelLatLng`. -/
structure LabelStatic where
  key : ℕ × ℕ
  polygonId : ℕ
  vertexIndex : ℕ
  vertexLatLng : LatLng
  text : ℝ × ℝ
  width : ℝ
  height : ℝ
  polygonVertices : List Pt
  manuallyPositioned : Bool

/-- Projection of a label onto its solver-immutable fields. -/
def Label.static (l : Label) : LabelStatic :=
  ⟨l.key, l.polygonId, l.vertexIndex, l.vertexLatLng, l.text, l.width,
    l.height, l.polygonVertices, l.manuallyPositioned⟩

/-! ## Statement vocabulary and concrete instances -/

/-- The property C1 asserts of every rebuilt label: a saved manual
position matching its key forces the restored position and flag. -/
def savedOK (saved : ℕ × ℕ → Option LatLng) (l : Label) : Prop :=
  ∀ p, saved l.key = some p → l.labelLatLng = p ∧ l.manuallyPositioned = true

/-- The position of `labels[i]` after the Verlet update and the
anchor-distance clamp of one step, immediately before the viewport
clamp (a projection of the code path inside `simulateStep`). -/
def preClampPosition (m : MapView) (sett : Settings) (s : SimState)
    (i : ℕ) : ℝ × ℝ :=
  anchorClamp (pixelsToDegrees (mppSim m.zoom) sett.maxLabelDistance)
    (s.labels.getD i default).vertexLatLng
    (verletRaw sett (netForce (mppSim m.zoom) sett s.labels i)
      (s.labels.getD i default)
      (s.previousPositions.getD i
        ⟨(s.labels.getD i default).labelLatLng.lat,
          (s.labels.getD i default).labelLatLng.lng⟩)).2.2.1
    (verletRaw sett (netForce (mppSim m.zoom) sett s.labels i)
      (s.labels.getD i default)
      (s.previousPositions.getD i
        ⟨(s.labels.getD i default).labelLatLng.lat,
          (s.labels.getD i default).labelLatLng.lng⟩)).2.2.2

/-- Concrete viewport: a 20°×20° square centred on the origin (so
`getCenter().lat = 0`), zoom 20. -/
def mapCx : MapView := ⟨⟨-10, 10, -10, 10⟩, 20⟩

/-- Concrete label whose anchor — and current position — lies far
outside the viewport, with an empty ring snapshot. -/
def labelCx : Label :=
  { key := (1, 0), polygonId := 1, vertexIndex := 0,
    vertexLatLng := ⟨100, 100⟩, labelLatLng := ⟨100, 100⟩,
    text := (100, 100), width := 0, height := 0,
    polygonVertices := [], manuallyPositioned := false }

/-- One-label simulation state at rest (previous position equals the
current position, so the implicit velocity is zero). -/
def simCx : SimState := ⟨[labelCx], [⟨100, 100⟩], [⟨0, 0⟩]⟩

/-- The hypothesis of C4, phrased on the same neighbour vectors
`calculateVertexAngle` uses: the two edges adjacent to `ring[index]`
are collinear pointing opposite ways (interior angle exactly 180°), or
one of them has length zero (the degenerate case). -/
def collinearAt (vertices : List Pt) (index : ℕ) : Prop :=
  let n := vertices.length
  let prev := vertices.getD (((index : ℤ) - 1 + n) % n).toNat ⟨0, 0⟩
  let curr := vertices.getD index ⟨0, 0⟩
  let next := vertices.getD ((index + 1) % n) ⟨0, 0⟩
  let v1x := prev.lon - curr.lon
  let v1y := prev.lat - curr.lat
  let v2x := next.lon - curr.lon
  let v2y := next.lat - curr.lat
  Real.sqrt (v1x * v1x + v1y * v1y) = 0 ∨
    Real.sqrt (v2x * v2x + v2y * v2y) = 0 ∨
    v1x * v2x + v1y * v2y =
      -(Real.sqrt (v1x * v1x + v1y * v1y) * Real.sqrt (v2x * v2x + v2y * v2y))

/-- Three collinear vertices on the equator line (the middle one has an
interior angle of exactly 180°). -/
def ring3 : List Pt := [⟨0, 0⟩, ⟨0, 1⟩, ⟨0, 2⟩]

/-- The empty manager state. -/
def emptyMgr : ManagerState := ⟨[], []⟩

/-- A two-point "ring" with both points inside `mapCx`'s viewport and
far apart on the equator line. -/
def ring2 : List Pt := [⟨0, 0⟩, ⟨0, 5⟩]

/-- A concrete selection context for the C7 scenario: polygon 1, unit
pixel conversion, `minVertexDistance = 1`, default shallow-angle
threshold 10°. -/
def ctx7 : SelCtx := ⟨1, 1, 1, 1, 10, 0, 0, [], fun _ => none⟩

/-- C7 scenario, vertex A: angle 40°, in view. -/
def dA7 : VertexDatum := ⟨⟨0, 0⟩, 0, 40, true⟩

/-- C7 scenario, vertex B: half a unit from A (closer than
`minVertexDistance = 1`), angle 170°, in view. -/
def dB7 : VertexDatum := ⟨⟨0, 1 / 2⟩, 1, 170, true⟩

/-- A freshly started scheduler run with no labels. -/
def schedCx0 : SchedState :=
  { map := mapCx, settings := defaultSettings, sim := ⟨[], [], []⟩,
    isSimulating := true, pending := true, iterationCount := 0,
    previousEnergy := none, stableCount := 0, polygonsForNames := none,
    showDebugFields := false, namesRendered := false, debugRendered := false }

/-- A running scheduler whose stability counter has just reached the
threshold. -/
def schedCx : SchedState :=
  { schedCx0 with stableCount := 10 }

/-- An idle scheduler with a 3-iteration budget and no labels. -/
def schedC3idle : SchedState :=
  { map := mapCx, settings := { defaultSettings with iterations := 3 },
    sim := ⟨[], [], []⟩, isSimulating := false, pending := false,
    iterationCount := 0, previousEnergy := none, stableCount := 0,
    polygonsForNames := none, showDebugFields := false,
    namesRendered := false, debugRendered := false }

/-- The C3 failing input: a run started with polygon-name completion
registered, then `stopSimulation()` called before the next animation
frame fires. -/
def schedC3 : SchedState :=
  stopSimulation (startSimulation schedC3idle (some [⟨1, ring3⟩]))

/-- C9 scenario, first label: sitting exactly on its anchor at the
origin. -/
def labelC9a : Label :=
  { key := (1, 0), polygonId := 1, vertexIndex := 0,
    vertexLatLng := ⟨0, 0⟩, labelLatLng := ⟨0, 0⟩, text := (0, 0),
    width := 0, height := 0, polygonVertices := [],
    manuallyPositioned := false }

/-- C9 scenario, second label: *exactly* the same position (zero
separation). -/
def labelC9b : Label :=
  { key := (1, 2), polygonId := 1, vertexIndex := 2,
    vertexLatLng := ⟨0, 0⟩, labelLatLng := ⟨0, 0⟩, text := (0, 0),
    width := 0, height := 0, polygonVertices := [],
    manuallyPositioned := false }

/-- C9 state: both labels at rest at the same point. -/
def simC9 : SimState :=
  ⟨[labelC9a, labelC9b], [⟨0, 0⟩, ⟨0, 0⟩], [⟨0, 0⟩, ⟨0, 0⟩]⟩

/-- The magnitude each of the two coincident labels moves on the first
step: `forceScale * (buffer-overlap push + fixed symmetric nudge)`. -/
def sepC9 : ℝ :=
  0.15 * (pixelsToDegrees (mppSim mapCx.zoom) 5 +
    pixelsToDegrees (mppSim mapCx.zoom) 10)

/-- Settings with the shallow-angle filter disabled
(`minVertexAngle = 0`), under which every in-view vertex is accepted. -/
def settW : Settings := { defaultSettings with minVertexAngle := 0 }

/-- A label previously dragged by the user to `(5, 5)`. -/
def oldLabelW : Label :=
  { key := (1, 0), polygonId := 1, vertexIndex := 0,
    vertexLatLng := ⟨0, 0⟩, labelLatLng := ⟨5, 5⟩, text := (0, 0),
    width := 0, height := 30, polygonVertices := [⟨0, 0⟩],
    manuallyPositioned := true }

/-- Manager state with `oldLabelW` recorded as manually positioned. -/
def stW : ManagerState := ⟨[oldLabelW], [(1, 0)]⟩

/-- A 1-vertex polygon whose (degenerate, 180°) vertex is re-selected
on rebuild when the angle filter is disabled. -/
def polyW : Polygon := ⟨1, [⟨0, 0⟩]⟩

/-- A second polygon with id 2, same degenerate 1-vertex hull. -/
def polyW2 : Polygon := ⟨2, [⟨0, 0⟩]⟩

/-- A manually positioned label at `(3, 4)`. -/
def labelWman : Label :=
  { key := (1, 0), polygonId := 1, vertexIndex := 0,
    vertexLatLng := ⟨0, 0⟩, labelLatLng := ⟨3, 4⟩, text := (0, 0),
    width := 0, height := 30, polygonVertices := [],
    manuallyPositioned := true }

/-- One-manual-label simulation state. -/
def simW : SimState := ⟨[labelWman], [⟨3, 4⟩], [⟨0, 0⟩]⟩

/-- A label of polygon 2 (used to witness that `setLabels` with an
empty ring leaves other polygons' labels alone). -/
def lbl2W : Label :=
  { key := (2, 0), polygonId := 2, vertexIndex := 0,
    vertexLatLng := ⟨0, 0⟩, labelLatLng := ⟨1, 1⟩, text := (0, 0),
    width := 0, height := 30, polygonVertices := [],
    manuallyPositioned := false }

/-- Manager state holding only `lbl2W`. -/
def stW2 : ManagerState := ⟨[lbl2W], []⟩

end

/-! ## Helper lemmas -/

/-- The solver's meters-per-pixel factor in closed form
(`Math.cos(0) = 1`). -/
theorem mppSim_eq (zoom : ℕ) : mppSim zoom = 156543.03392 / 2 ^ zoom := by
  unfold mppSim metersPerPixel
  simp

/-- The solver's meters-per-pixel factor is positive at every zoom. -/
theorem mppSim_pos (zoom : ℕ) : 0 < mppSim zoom := by
  rw [mppSim_eq]; positivity

/-- Pixel distances convert to nonnegative coordinate distances. -/
theorem pixelsToDegrees_nonneg {mpp px : ℝ} (h1 : 0 ≤ mpp) (h2 : 0 ≤ px) :
    0 ≤ pixelsToDegrees mpp px := by
  unfold pixelsToDegrees; positivity

/-- Pixel distances convert to positive coordinate distances. -/
theorem pixelsToDegrees_pos {mpp px : ℝ} (h1 : 0 < mpp) (h2 : 0 < px) :
    0 < pixelsToDegrees mpp px := by
  unfold pixelsToDegrees; positivity

/-- A fold preserves any invariant its step preserves. -/
theorem foldl_inv {σ β : Type} {f : σ → β → σ} {P : σ → Prop}
    (h : ∀ s b, P s → P (f s b)) :
    ∀ (l : List β) (s : σ), P s → P (l.foldl f s) := by
  intro l
  induction l with
  | nil => intro s hs; exact hs
  | cons b t ih => intro s hs; exact ih (f s b) (h s b hs)

/-- A fold preserves any invariant its step preserves on the elements
of the folded list. -/
theorem foldl_inv_mem {σ β : Type} {f : σ → β → σ} {P : σ → Prop} :
    ∀ (l : List β), (∀ s b, b ∈ l → P s → P (f s b)) →
      ∀ s, P s → P (l.foldl f s) := by
  intro l
  induction l with
  | nil => intro _ s hs; exact hs
  | cons b t ih =>
    intro h s hs
    exact ih (fun s' b' hb' => h s' b' (List.mem_cons_of_mem _ hb')) (f s b)
      (h s b (List.mem_cons_self _ _) hs)

/-- The labels array produced by one `simulateStep`, as a map over the
enumerated current labels. -/
theorem simulateStep_labels (m : MapView) (sett : Settings) (s : SimState) :
    (simulateStep m sett s).1.labels = s.labels.enum.map (fun p =>
      if p.2.manuallyPositioned then p.2
      else (integrateLabel (mppSim m.zoom) sett m.bounds
        (netForce (mppSim m.zoom) sett s.labels p.1) p.2
        (s.previousPositions.getD p.1
          ⟨p.2.labelLatLng.lat, p.2.labelLatLng.lng⟩)).1) := by
  simp only [simulateStep, List.map_map]
  refine List.map_congr_left ?_
  intro p _
  by_cases h : p.2.manuallyPositioned <;> simp [h]

/-- `integrateLabel` only rewrites the position. -/
theorem integrateLabel_static (mpp : ℝ) (sett : Settings) (bounds : Bounds)
    (force : Vec) (label : Label) (prev : Vec) :
    (integrateLabel mpp sett bounds force label prev).1.static = label.static := rfl

/-- A manually positioned label is returned untouched by the step. -/
theorem simulateStep_manual_getD (m : MapView) (sett : Settings) (s : SimState)
    (i : ℕ) (h : (s.labels.getD i default).manuallyPositioned = true) :
    (simulateStep m sett s).1.labels.getD i default = s.labels.getD i default := by
  rw [simulateStep_labels]
  rcases lt_or_le i s.labels.length with hi | hi
  · rw [List.getD_eq_getElem _ _ hi] at h
    rw [List.getD_eq_getElem _ _ hi,
      List.getD_eq_getElem _ _ (by simpa using hi),
      List.getElem_map, List.getElem_enum]
    simp [h]
  · rw [List.getD_eq_default _ _ (by simpa using hi),
      List.getD_eq_default _ _ hi]

/-! ## Claims -/

/-- **C8**: `lineIntersectsBox` on the segment `(0,0)-(10,10)` and box
`{left 2, right 8, bottom 2, top 8}` returns `true`; on the segment
`(0,0)-(1,1)` and box `{left 5, right 6, bottom 5, top 6}` returns
`false`; and it returns `true` for every segment with at least one
endpoint strictly inside the box, whatever the other endpoint. -/
theorem claim_C8_lineIntersectsBox :
    lineIntersectsBox (0 : ℚ) 0 10 10 ⟨2, 8, 2, 8⟩ = true ∧
    lineIntersectsBox (0 : ℚ) 0 1 1 ⟨5, 6, 5, 6⟩ = false ∧
    ∀ {α : Type} [LinearOrderedField α] (y1 x1 y2 x2 : α) (box : Box α),
      (box.left < x1 ∧ x1 < box.right ∧ box.bottom < y1 ∧ y1 < box.top) ∨
        (box.left < x2 ∧ x2 < box.right ∧ box.bottom < y2 ∧ y2 < box.top) →
      lineIntersectsBox y1 x1 y2 x2 box = true := by
  refine ⟨by norm_num [lineIntersectsBox], by norm_num [lineIntersectsBox], ?_⟩
  intro α _ y1 x1 y2 x2 box h
  have hrej : ¬((x1 < box.left ∧ x2 < box.left) ∨
      (x1 > box.right ∧ x2 > box.right) ∨
      (y1 < box.bottom ∧ y2 < box.bottom) ∨ (y1 > box.top ∧ y2 > box.top)) := by
    rcases h with ⟨h1, h2, h3, h4⟩ | ⟨h1, h2, h3, h4⟩ <;>
      rintro (⟨a, b⟩ | ⟨a, b⟩ | ⟨a, b⟩ | ⟨a, b⟩) <;> linarith
  have hin : (x1 ≥ box.left ∧ x1 ≤ box.right ∧ y1 ≥ box.bottom ∧ y1 ≤ box.top) ∨
      (x2 ≥ box.left ∧ x2 ≤ box.right ∧ y2 ≥ box.bottom ∧ y2 ≤ box.top) := by
    rcases h with ⟨h1, h2, h3, h4⟩ | ⟨h1, h2, h3, h4⟩
    · exact Or.inl ⟨h1.le, h2.le, h3.le, h4.le⟩
    · exact Or.inr ⟨h1.le, h2.le, h3.le, h4.le⟩
  unfold lineIntersectsBox
  simp only [if_neg hrej, if_pos hin]

/-- **C8 witness**: the universal part at a concrete input — endpoint
`(3,3)` strictly inside the box `{2,8,2,8}`, other endpoint `(100,-50)`
far outside. -/
theorem claim_C8_lineIntersectsBox_witness :
    lineIntersectsBox (3 : ℚ) 3 (-50) 100 ⟨2, 8, 2, 8⟩ = true :=
  claim_C8_lineIntersectsBox.2.2 3 3 (-50) 100 ⟨2, 8, 2, 8⟩
    (Or.inl (by norm_num))

/-- A manually positioned label is untouched by any number of steps. -/
theorem stepN_manual_getD (m : MapView) (sett : Settings) (s : SimState)
    (i n : ℕ) (h : (s.labels.getD i default).manuallyPositioned = true) :
    ((simulateStepState m sett)^[n] s).labels.getD i default =
      s.labels.getD i default := by
  induction n with
  | zero => simp
  | succ k ih =>
    rw [Function.iterate_succ_apply', simulateStepState,
      simulateStep_manual_getD]
    · exact ih
    · rw [ih]; exact h

/-- A label built by the `updateAllLabels` body restores a saved manual
position byte-for-byte and carries the flag. -/
theorem mkLabelUpdate_savedOK (ctx : SelCtx) (d : VertexDatum) :
    savedOK ctx.savedPositions (mkLabelUpdate ctx d) := by
  intro p hp
  have hk : (mkLabelUpdate ctx d).key = (ctx.polygonId, d.index) := rfl
  rw [hk] at hp
  unfold mkLabelUpdate
  simp [hp]

/-- The per-vertex body of `updateAllLabels` preserves the
saved-position property of every label in the working state. -/
theorem processVertexUpdate_savedOK (saved : ℕ × ℕ → Option LatLng)
    (ctx : SelCtx) (hctx : ctx.savedPositions = saved) (st : SelState)
    (d : VertexDatum) (hst : ∀ l ∈ st.labels, savedOK saved l) :
    ∀ l ∈ (processVertexUpdate ctx st d).labels, savedOK saved l := by
  intro l hl
  unfold processVertexUpdate at hl
  split at hl
  · exact hst l hl
  · split at hl
    · exact hst l hl
    · split at hl
      · rename_i k hk
        split at hl
        · simp only at hl
          rcases List.mem_append.mp hl with h | h
          · split at h
            · exact hst l ((List.eraseIdx_sublist _ _).mem h)
            · exact hst l h
          · rw [List.mem_singleton.mp h, ← hctx]
            exact mkLabelUpdate_savedOK ctx d
        · exact hst l hl
      · simp only at hl
        rcases List.mem_append.mp hl with h | h
        · exact hst l h
        · rw [List.mem_singleton.mp h, ← hctx]
          exact mkLabelUpdate_savedOK ctx d

/-- Every label produced by `updateAllLabels` satisfies the
saved-position property for the snapshot taken from the old state. -/
theorem updateAllLabels_savedOK (m : MapView) (sett : Settings)
    (st : ManagerState) (polygons : List Polygon) :
    ∀ l ∈ (updateAllLabels m sett st polygons).labels,
      savedOK (savedPositionsOf st) l := by
  unfold updateAllLabels
  simp only
  refine foldl_inv (P := fun acc : SelState =>
    ∀ l ∈ acc.labels, savedOK (savedPositionsOf st) l) ?_ polygons ⟨[], []⟩
    (by intro l hl; simp at hl)
  intro acc polygon hacc
  dsimp only
  split
  · exact hacc
  · split
    · exact hacc
    · exact foldl_inv (P := fun acc : SelState =>
        ∀ l ∈ acc.labels, savedOK (savedPositionsOf st) l)
        (fun s' d hs' => processVertexUpdate_savedOK (savedPositionsOf st) _
          rfl s' d hs') _ acc hacc

/-- **C1**: (a) a label whose `manuallyPositioned` flag is set keeps its
`labelLatLng` across any number of `simulateStep` calls; (b) on a
rebuild via `updateAllLabels`, every newly created label whose key has a
saved manually-positioned coordinate gets exactly that coordinate as
its position and `manuallyPositioned = true`. -/
theorem claim_C1_manual_position_invariance :
    (∀ (m : MapView) (sett : Settings) (s : SimState) (i n : ℕ),
      (s.labels.getD i default).manuallyPositioned = true →
      (((simulateStepState m sett)^[n] s).labels.getD i default).labelLatLng =
        (s.labels.getD i default).labelLatLng) ∧
    (∀ (m : MapView) (sett : Settings) (st : ManagerState)
      (polygons : List Polygon),
      ∀ l' ∈ (updateAllLabels m sett st polygons).labels,
      ∀ p, savedPositionsOf st l'.key = some p →
        l'.labelLatLng = p ∧ l'.manuallyPositioned = true) := by
  constructor
  · intro m sett s i n h
    rw [stepN_manual_getD m sett s i n h]
  · intro m sett st polygons l' hl' p hp
    exact updateAllLabels_savedOK m sett st polygons l' hl' p hp

/-- The anchor-distance clamp really bounds the distance to the anchor
by `maxDist` (for nonnegative `maxDist`). -/
theorem anchorClamp_dist_le (maxDist : ℝ) (hmax : 0 ≤ maxDist)
    (anchor : LatLng) (nLat nLng : ℝ) :
    Real.sqrt
        (((anchorClamp maxDist anchor nLat nLng).2 - anchor.lng) *
            ((anchorClamp maxDist anchor nLat nLng).2 - anchor.lng) +
          ((anchorClamp maxDist anchor nLat nLng).1 - anchor.lat) *
            ((anchorClamp maxDist anchor nLat nLng).1 - anchor.lat)) ≤
      maxDist := by
  unfold anchorClamp
  set dx := nLng - anchor.lng with hdx
  set dy := nLat - anchor.lat with hdy
  by_cases h : Real.sqrt (dx * dx + dy * dy) > maxDist
  · rw [if_pos h]
    dsimp only
    have hvdpos : 0 < Real.sqrt (dx * dx + dy * dy) := lt_of_le_of_lt hmax h
    have h2 : anchor.lng + dx * (maxDist / Real.sqrt (dx * dx + dy * dy)) -
        anchor.lng = dx * (maxDist / Real.sqrt (dx * dx + dy * dy)) := by ring
    have h3 : anchor.lat + dy * (maxDist / Real.sqrt (dx * dx + dy * dy)) -
        anchor.lat = dy * (maxDist / Real.sqrt (dx * dx + dy * dy)) := by ring
    rw [h2, h3]
    have h4 : dx * (maxDist / Real.sqrt (dx * dx + dy * dy)) *
          (dx * (maxDist / Real.sqrt (dx * dx + dy * dy))) +
        dy * (maxDist / Real.sqrt (dx * dx + dy * dy)) *
          (dy * (maxDist / Real.sqrt (dx * dx + dy * dy))) =
        (dx * dx + dy * dy) * (maxDist / Real.sqrt (dx * dx + dy * dy)) ^ 2 := by
      ring
    have hs : (0 : ℝ) ≤ dx * dx + dy * dy := by
      nlinarith [mul_self_nonneg dx, mul_self_nonneg dy]
    rw [h4, Real.sqrt_mul hs, Real.sqrt_sq (div_nonneg hmax (Real.sqrt_nonneg _))]
    have h5 : Real.sqrt (dx * dx + dy * dy) *
        (maxDist / Real.sqrt (dx * dx + dy * dy)) = maxDist := by
      field_simp
    rw [h5]
  · rw [if_neg h]
    push_neg at h
    simpa using h

/-- The step's update of a non-manual label in closed form. -/
theorem simulateStep_nonmanual_getD (m : MapView) (sett : Settings)
    (s : SimState) (i : ℕ) (hi : i < s.labels.length)
    (hman : (s.labels.getD i default).manuallyPositioned = false) :
    (simulateStep m sett s).1.labels.getD i default =
      (integrateLabel (mppSim m.zoom) sett m.bounds
        (netForce (mppSim m.zoom) sett s.labels i) (s.labels.getD i default)
        (s.previousPositions.getD i
          ⟨(s.labels.getD i default).labelLatLng.lat,
            (s.labels.getD i default).labelLatLng.lng⟩)).1 := by
  rw [simulateStep_labels]
  rw [List.getD_eq_getElem _ _ hi] at hman
  rw [List.getD_eq_getElem _ _ (by simpa using hi), List.getElem_map,
    List.getElem_enum, List.getD_eq_getElem _ _ hi]
  simp [hman]

/-- The final position written by `integrateLabel` is the viewport
clamp of the anchor-clamped Verlet update. -/
theorem integrateLabel_labelLatLng (mpp : ℝ) (sett : Settings)
    (bounds : Bounds) (force : Vec) (label : Label) (prev : Vec) :
    (integrateLabel mpp sett bounds force label prev).1.labelLatLng =
      ⟨(boundsClamp bounds (pixelsToDegrees mpp (label.width / 2 + 10))
          (pixelsToDegrees mpp (label.height / 2 + 10))
          (anchorClamp (pixelsToDegrees mpp sett.maxLabelDistance)
            label.vertexLatLng (verletRaw sett force label prev).2.2.1
            (verletRaw sett force label prev).2.2.2).1
          (anchorClamp (pixelsToDegrees mpp sett.maxLabelDistance)
            label.vertexLatLng (verletRaw sett force label prev).2.2.1
            (verletRaw sett force label prev).2.2.2).2).1,
        (boundsClamp bounds (pixelsToDegrees mpp (label.width / 2 + 10))
          (pixelsToDegrees mpp (label.height / 2 + 10))
          (anchorClamp (pixelsToDegrees mpp sett.maxLabelDistance)
            label.vertexLatLng (verletRaw sett force label prev).2.2.1
            (verletRaw sett force label prev).2.2.2).1
          (anchorClamp (pixelsToDegrees mpp sett.maxLabelDistance)
            label.vertexLatLng (verletRaw sett force label prev).2.2.1
            (verletRaw sett force label prev).2.2.2).2).2⟩ := rfl

/-- **C2 (amended)**: after one `simulateStep`, for every non-manual
label the distance to its anchor vertex is at most `maxLabelDistance`
in coordinate-space units *immediately after the anchor-distance
clamp*; the final position is the viewport clamp of that point, which
can move it again (see the counterexample), so the claimed bound on
the final position holds exactly when the viewport clamp returns the
point unchanged. -/
theorem claim_C2_anchor_distance_bound_amended (m : MapView)
    (sett : Settings) (s : SimState) (i : ℕ) (hi : i < s.labels.length)
    (hman : (s.labels.getD i default).manuallyPositioned = false)
    (hmax : 0 ≤ sett.maxLabelDistance) :
    Real.sqrt
        (((preClampPosition m sett s i).2 -
            (s.labels.getD i default).vertexLatLng.lng) *
          ((preClampPosition m sett s i).2 -
            (s.labels.getD i default).vertexLatLng.lng) +
          ((preClampPosition m sett s i).1 -
              (s.labels.getD i default).vertexLatLng.lat) *
            ((preClampPosition m sett s i).1 -
              (s.labels.getD i default).vertexLatLng.lat)) ≤
      pixelsToDegrees (mppSim m.zoom) sett.maxLabelDistance ∧
    ((simulateStep m sett s).1.labels.getD i default).labelLatLng =
      ⟨(boundsClamp m.bounds
          (pixelsToDegrees (mppSim m.zoom)
            ((s.labels.getD i default).width / 2 + 10))
          (pixelsToDegrees (mppSim m.zoom)
            ((s.labels.getD i default).height / 2 + 10))
          (preClampPosition m sett s i).1 (preClampPosition m sett s i).2).1,
        (boundsClamp m.bounds
          (pixelsToDegrees (mppSim m.zoom)
            ((s.labels.getD i default).width / 2 + 10))
          (pixelsToDegrees (mppSim m.zoom)
            ((s.labels.getD i default).height / 2 + 10))
          (preClampPosition m sett s i).1
          (preClampPosition m sett s i).2).2⟩ ∧
    (((simulateStep m sett s).1.labels.getD i default).labelLatLng =
        ⟨(preClampPosition m sett s i).1, (preClampPosition m sett s i).2⟩ →
      Real.sqrt
          ((((simulateStep m sett s).1.labels.getD i default).labelLatLng.lng -
              (s.labels.getD i default).vertexLatLng.lng) *
            (((simulateStep m sett s).1.labels.getD i default).labelLatLng.lng -
              (s.labels.getD i default).vertexLatLng.lng) +
            ((((simulateStep m sett s).1.labels.getD i default).labelLatLng.lat -
                (s.labels.getD i default).vertexLatLng.lat)) *
              (((simulateStep m sett s).1.labels.getD i default).labelLatLng.lat -
                (s.labels.getD i default).vertexLatLng.lat)) ≤
        pixelsToDegrees (mppSim m.zoom) sett.maxLabelDistance) := by
  have hmd : 0 ≤ pixelsToDegrees (mppSim m.zoom) sett.maxLabelDistance :=
    pixelsToDegrees_nonneg (le_of_lt (mppSim_pos m.zoom)) hmax
  have hfirst := anchorClamp_dist_le
    (pixelsToDegrees (mppSim m.zoom) sett.maxLabelDistance) hmd
    (s.labels.getD i default).vertexLatLng
    (verletRaw sett (netForce (mppSim m.zoom) sett s.labels i)
      (s.labels.getD i default)
      (s.previousPositions.getD i
        ⟨(s.labels.getD i default).labelLatLng.lat,
          (s.labels.getD i default).labelLatLng.lng⟩)).2.2.1
    (verletRaw sett (netForce (mppSim m.zoom) sett s.labels i)
      (s.labels.getD i default)
      (s.previousPositions.getD i
        ⟨(s.labels.getD i default).labelLatLng.lat,
          (s.labels.getD i default).labelLatLng.lng⟩)).2.2.2
  refine ⟨?_, ?_, ?_⟩
  · unfold preClampPosition
    exact hfirst
  · rw [simulateStep_nonmanual_getD m sett s i hi hman,
      integrateLabel_labelLatLng]
    unfold preClampPosition
    rfl
  · intro hid
    rw [hid]
    dsimp only
    unfold preClampPosition
    exact hfirst

/-- **C2 witness**: the amended bound instantiated at a concrete
one-label state (defined below with the counterexample data). -/
theorem claim_C2_anchor_distance_bound_amended_witness :
    Real.sqrt
        (((preClampPosition mapCx defaultSettings simCx 0).2 -
            (simCx.labels.getD 0 default).vertexLatLng.lng) *
          ((preClampPosition mapCx defaultSettings simCx 0).2 -
            (simCx.labels.getD 0 default).vertexLatLng.lng) +
          ((preClampPosition mapCx defaultSettings simCx 0).1 -
              (simCx.labels.getD 0 default).vertexLatLng.lat) *
            ((preClampPosition mapCx defaultSettings simCx 0).1 -
              (simCx.labels.getD 0 default).vertexLatLng.lat)) ≤
      pixelsToDegrees (mppSim mapCx.zoom) defaultSettings.maxLabelDistance :=
  (claim_C2_anchor_distance_bound_amended mapCx defaultSettings simCx 0
    (by simp [simCx]) rfl (by norm_num [defaultSettings])).1

/-- `Vec` addition componentwise. -/
theorem Vec.add_def (a b : Vec) : a + b = ⟨a.lat + b.lat, a.lon + b.lon⟩ := rfl

/-- The zero `Vec`. -/
theorem Vec.zero_def : (0 : Vec) = ⟨0, 0⟩ := rfl

/-- `Vec` subtraction componentwise. -/
theorem Vec.sub_def (a b : Vec) : a - b = ⟨a.lat - b.lat, a.lon - b.lon⟩ := rfl

/-- Latitude component of the zero `Vec`. -/
theorem Vec.zero_lat : (0 : Vec).lat = 0 := rfl

/-- Longitude component of the zero `Vec`. -/
theorem Vec.zero_lon : (0 : Vec).lon = 0 := rfl

/-- At the counterexample state the net force on the only label is
zero: no other labels, empty ring snapshot, and the label sits exactly
on its anchor (so the spring is skipped by the epsilon guard). -/
theorem netForce_simCx :
    netForce (mppSim mapCx.zoom) defaultSettings simCx.labels 0 = 0 := by
  unfold netForce vertexRepForce pairNetForce springForce centerRepForce
    leaderForce allVerticesOf
  norm_num [simCx, labelCx, List.range_succ, Vec.add_def, Vec.zero_def,
    Vec.zero_lat, Vec.zero_lon, Real.sqrt_zero]
  rfl

/-- At the counterexample state, one step moves the label from its
anchor `(100, 100)` to the padded viewport corner. -/
theorem simCx_step_pos :
    ((simulateStep mapCx defaultSettings simCx).1.labels.getD 0
        default).labelLatLng =
      ⟨10 - pixelsToDegrees (mppSim mapCx.zoom) 10,
        10 - pixelsToDegrees (mppSim mapCx.zoom) 10⟩ := by
  have hq0 : 0 < pixelsToDegrees (mppSim mapCx.zoom) 10 :=
    pixelsToDegrees_pos (mppSim_pos _) (by norm_num)
  have hq1 : pixelsToDegrees (mppSim mapCx.zoom) 10 < 1 := by
    rw [mppSim_eq]
    unfold pixelsToDegrees
    norm_num [mapCx]
  have hmd : 0 ≤ pixelsToDegrees (mppSim mapCx.zoom)
      defaultSettings.maxLabelDistance :=
    pixelsToDegrees_nonneg (le_of_lt (mppSim_pos _))
      (by norm_num [defaultSettings])
  rw [simulateStep_nonmanual_getD mapCx defaultSettings simCx 0
    (by simp [simCx]) rfl, integrateLabel_labelLatLng, netForce_simCx]
  have hverlet : verletRaw defaultSettings 0 (simCx.labels.getD 0 default)
      (simCx.previousPositions.getD 0
        ⟨(simCx.labels.getD 0 default).labelLatLng.lat,
          (simCx.labels.getD 0 default).labelLatLng.lng⟩) =
      (0, 0, 100, 100) := by
    unfold verletRaw
    norm_num [simCx, labelCx, defaultSettings, Vec.zero_lat, Vec.zero_lon]
  rw [hverlet]
  dsimp only
  have hv : (simCx.labels.getD 0 default).vertexLatLng =
      (⟨100, 100⟩ : LatLng) := rfl
  rw [hv]
  have hanchor : anchorClamp
      (pixelsToDegrees (mppSim mapCx.zoom) defaultSettings.maxLabelDistance)
      (⟨100, 100⟩ : LatLng) 100 100 = (100, 100) := by
    unfold anchorClamp
    dsimp only
    have h0 : Real.sqrt ((100 - (100 : ℝ)) * (100 - 100) +
        (100 - (100 : ℝ)) * (100 - 100)) = 0 := by
      norm_num [Real.sqrt_zero]
    rw [h0, if_neg (not_lt.mpr hmd)]
  rw [hanchor]
  have hwidth : (simCx.labels.getD 0 default).width = 0 := rfl
  have hheight : (simCx.labels.getD 0 default).height = 0 := rfl
  unfold boundsClamp
  rw [hwidth, hheight]
  have h10 : (0 : ℝ) / 2 + 10 = 10 := by norm_num
  rw [h10]
  have hbounds : mapCx.bounds = ⟨-10, 10, -10, 10⟩ := rfl
  rw [hbounds]
  dsimp only
  have hmin : min (10 - pixelsToDegrees (mppSim mapCx.zoom) 10) (100 : ℝ) =
      10 - pixelsToDegrees (mppSim mapCx.zoom) 10 := by
    apply min_eq_left
    linarith
  have hmax' : max (-10 + pixelsToDegrees (mppSim mapCx.zoom) 10)
      (10 - pixelsToDegrees (mppSim mapCx.zoom) 10) =
      10 - pixelsToDegrees (mppSim mapCx.zoom) 10 := by
    apply max_eq_right
    linarith
  rw [hmin, hmax']

/-- **C2 counterexample**: at the concrete state `simCx` (single
non-manual label anchored at `(100, 100)`, far outside the viewport
`[-10,10]²`), after one `simulateStep` the viewport clamp has moved the
label to the padded viewport corner, more than `maxLabelDistance + 1`
(in degrees — the distance exceeds the bound by over 80) away from its
anchor, refuting the claimed post-step anchor-distance bound. -/
theorem claim_C2_counterexample :
    (simCx.labels.getD 0 default).manuallyPositioned = false ∧
    ¬ (Real.sqrt
        ((((simulateStep mapCx defaultSettings simCx).1.labels.getD 0
              default).labelLatLng.lng -
            (simCx.labels.getD 0 default).vertexLatLng.lng) *
          (((simulateStep mapCx defaultSettings simCx).1.labels.getD 0
              default).labelLatLng.lng -
            (simCx.labels.getD 0 default).vertexLatLng.lng) +
          (((simulateStep mapCx defaultSettings simCx).1.labels.getD 0
                default).labelLatLng.lat -
              (simCx.labels.getD 0 default).vertexLatLng.lat) *
            (((simulateStep mapCx defaultSettings simCx).1.labels.getD 0
                default).labelLatLng.lat -
              (simCx.labels.getD 0 default).vertexLatLng.lat)) ≤
      pixelsToDegrees (mppSim mapCx.zoom) defaultSettings.maxLabelDistance + 1) := by
  refine ⟨rfl, ?_⟩
  rw [simCx_step_pos]
  have hanchor : (simCx.labels.getD 0 default).vertexLatLng = ⟨100, 100⟩ := rfl
  rw [hanchor]
  dsimp only
  set q := pixelsToDegrees (mppSim mapCx.zoom) 10 with hq
  have hq0 : 0 < q := pixelsToDegrees_pos (mppSim_pos _) (by norm_num)
  have hq1 : q < 1 := by
    rw [hq, mppSim_eq]
    unfold pixelsToDegrees
    norm_num [mapCx]
  have hmd : pixelsToDegrees (mppSim mapCx.zoom) defaultSettings.maxLabelDistance =
      8 * q := by
    rw [hq]
    unfold pixelsToDegrees
    norm_num [defaultSettings]
    ring
  rw [hmd]
  intro hle
  have hX : 10 - q - 100 = -(90 + q) := by ring
  have hsq : Real.sqrt ((10 - q - 100) * (10 - q - 100)) = 90 + q := by
    rw [hX]
    rw [show -(90 + q) * -(90 + q) = (90 + q) * (90 + q) by ring]
    rw [Real.sqrt_mul_self (by linarith)]
  have hmono : Real.sqrt ((10 - q - 100) * (10 - q - 100)) ≤
      Real.sqrt ((10 - q - 100) * (10 - q - 100) +
        (10 - q - 100) * (10 - q - 100)) := by
    apply Real.sqrt_le_sqrt
    nlinarith [mul_self_nonneg (10 - q - 100)]
  rw [hsq] at hmono
  linarith

/-- The angle formula of `calculateVertexAngle` returns 180 on
degenerate or anti-parallel neighbour vectors. -/
theorem angleFormula_collinear (v1x v1y v2x v2y : ℝ)
    (h : Real.sqrt (v1x * v1x + v1y * v1y) = 0 ∨
      Real.sqrt (v2x * v2x + v2y * v2y) = 0 ∨
      v1x * v2x + v1y * v2y =
        -(Real.sqrt (v1x * v1x + v1y * v1y) *
          Real.sqrt (v2x * v2x + v2y * v2y))) :
    (if Real.sqrt (v1x * v1x + v1y * v1y) = 0 ∨
        Real.sqrt (v2x * v2x + v2y * v2y) = 0 then (180 : ℝ)
      else Real.arccos (max (-1) (min 1 ((v1x * v2x + v1y * v2y) /
          (Real.sqrt (v1x * v1x + v1y * v1y) *
            Real.sqrt (v2x * v2x + v2y * v2y))))) * (180 / Real.pi)) =
      180 := by
  by_cases hm : Real.sqrt (v1x * v1x + v1y * v1y) = 0 ∨
      Real.sqrt (v2x * v2x + v2y * v2y) = 0
  · rw [if_pos hm]
  · rw [if_neg hm]
    push_neg at hm
    rcases h with h | h | h
    · exact absurd h hm.1
    · exact absurd h hm.2
    · rw [h, neg_div, div_self (mul_ne_zero hm.1 hm.2)]
      rw [min_eq_right (by norm_num : (-1 : ℝ) ≤ 1), max_self,
        Real.arccos_neg_one]
      field_simp

/-- **C4 part 1**: collinear adjacent edges (including the zero-length
degenerate case) give a vertex angle of exactly 180°. -/
theorem calculateVertexAngle_collinear (ring : List Pt) (idx : ℕ)
    (h : collinearAt ring idx) : calculateVertexAngle ring idx = 180 :=
  angleFormula_collinear _ _ _ _ h

/-- The `setLabels` body never pushes a label for a vertex whose angle
fails the shallow-angle filter. -/
theorem processVertexSet_no_key (ctx : SelCtx) (st : SelState)
    (d : VertexDatum) (pid idx : ℕ)
    (hd : ctx.polygonId = pid → d.index = idx →
      d.angle > 180 - ctx.minVertexAngle)
    (hst : ∀ l ∈ st.labels, ¬(l.polygonId = pid ∧ l.vertexIndex = idx)) :
    ∀ l ∈ (processVertexSet ctx st d).labels,
      ¬(l.polygonId = pid ∧ l.vertexIndex = idx) := by
  intro l hl
  unfold processVertexSet at hl
  split at hl
  · exact hst l hl
  · split at hl
    · exact hst l hl
    · rename_i hb ha
      have hpush : ∀ l', l' = mkLabelSet ctx d →
          ¬(l'.polygonId = pid ∧ l'.vertexIndex = idx) := by
        rintro l' rfl ⟨hp, hv⟩
        exact ha (hd hp hv)
      split at hl
      · split at hl
        · rcases List.mem_append.mp hl with h' | h'
          · split at h'
            · exact hst l ((List.eraseIdx_sublist _ _).mem h')
            · exact hst l h'
          · exact hpush l (List.mem_singleton.mp h')
        · exact hst l hl
      · rcases List.mem_append.mp hl with h' | h'
        · exact hst l h'
        · exact hpush l (List.mem_singleton.mp h')

/-- The `updateAllLabels` body never pushes a label for a vertex whose
angle fails the shallow-angle filter. -/
theorem processVertexUpdate_no_key (ctx : SelCtx) (st : SelState)
    (d : VertexDatum) (pid idx : ℕ)
    (hd : ctx.polygonId = pid → d.index = idx →
      d.angle > 180 - ctx.minVertexAngle)
    (hst : ∀ l ∈ st.labels, ¬(l.polygonId = pid ∧ l.vertexIndex = idx)) :
    ∀ l ∈ (processVertexUpdate ctx st d).labels,
      ¬(l.polygonId = pid ∧ l.vertexIndex = idx) := by
  intro l hl
  unfold processVertexUpdate at hl
  split at hl
  · exact hst l hl
  · split at hl
    · exact hst l hl
    · rename_i hb ha
      have hpush : ∀ l', l' = mkLabelUpdate ctx d →
          ¬(l'.polygonId = pid ∧ l'.vertexIndex = idx) := by
        rintro l' rfl ⟨hp, hv⟩
        exact ha (hd hp hv)
      split at hl
      · split at hl
        · rcases List.mem_append.mp hl with h' | h'
          · split at h'
            · exact hst l ((List.eraseIdx_sublist _ _).mem h')
            · exact hst l h'
          · exact hpush l (List.mem_singleton.mp h')
        · exact hst l hl
      · rcases List.mem_append.mp hl with h' | h'
        · exact hst l h'
        · exact hpush l (List.mem_singleton.mp h')

/-- The angle stored in a `vertexData` record is the computed vertex
angle of its index. -/
theorem vertexDataOf_angle (bounds : Bounds) (ring : List Pt) :
    ∀ d ∈ vertexDataOf bounds ring,
      d.angle = calculateVertexAngle ring d.index := by
  intro d hd
  unfold vertexDataOf at hd
  rcases List.mem_map.mp hd with ⟨p, _, rfl⟩
  rfl

/-- `setLabels` never labels a collinear vertex when the minimum
vertex angle is positive. -/
theorem setLabels_no_collinear (m : MapView) (sett : Settings)
    (st : ManagerState) (pid : ℕ) (ring : List Pt) (idx : ℕ)
    (hcol : collinearAt ring idx) (hmva : 0 < sett.minVertexAngle) :
    ∀ l ∈ (setLabels m sett st pid ring).labels,
      ¬(l.polygonId = pid ∧ l.vertexIndex = idx) := by
  have hrem : ∀ l ∈ (removeLabels st pid).labels,
      ¬(l.polygonId = pid ∧ l.vertexIndex = idx) := by
    rintro l hl ⟨hp, _⟩
    unfold removeLabels at hl
    simp only [List.mem_filter, decide_eq_true_eq] at hl
    exact hl.2 hp
  unfold setLabels
  split
  · exact hrem
  · dsimp only
    split
    · exact hrem
    · intro l hl
      simp only at hl
      refine foldl_inv_mem (P := fun acc : SelState =>
        ∀ l' ∈ acc.labels, ¬(l'.polygonId = pid ∧ l'.vertexIndex = idx))
        _ ?_ _ hrem l hl
      intro s' d hd hs'
      refine processVertexSet_no_key _ s' d pid idx ?_ hs'
      intro _ hidx
      rw [vertexDataOf_angle _ _ d hd, hidx,
        calculateVertexAngle_collinear ring idx hcol]
      linarith

/-- `updateAllLabels` never labels a collinear vertex when the minimum
vertex angle is positive (assuming every polygon carrying the given id
has the given ring). -/
theorem updateAllLabels_no_collinear (m : MapView) (sett : Settings)
    (st : ManagerState) (polygons : List Polygon) (pid : ℕ)
    (ring : List Pt) (idx : ℕ) (hcol : collinearAt ring idx)
    (hmva : 0 < sett.minVertexAngle)
    (hpoly : ∀ poly ∈ polygons, poly.id = pid → poly.hull = ring) :
    ∀ l ∈ (updateAllLabels m sett st polygons).labels,
      ¬(l.polygonId = pid ∧ l.vertexIndex = idx) := by
  unfold updateAllLabels
  intro l hl
  simp only at hl
  refine foldl_inv_mem (P := fun acc : SelState =>
    ∀ l' ∈ acc.labels, ¬(l'.polygonId = pid ∧ l'.vertexIndex = idx))
    polygons ?_ ⟨[], []⟩ (by intro l' hl'; simp at hl') l hl
  intro acc poly hmem hacc
  dsimp only
  split
  · exact hacc
  · split
    · exact hacc
    · refine foldl_inv_mem (P := fun acc' : SelState =>
        ∀ l' ∈ acc'.labels, ¬(l'.polygonId = pid ∧ l'.vertexIndex = idx))
        _ ?_ acc hacc
      intro s' d hd hs'
      refine processVertexUpdate_no_key _ s' d pid idx ?_ hs'
      intro hpid hidx
      have hring : poly.hull = ring := hpoly poly hmem hpid
      rw [vertexDataOf_angle _ _ d hd, hidx, hring,
        calculateVertexAngle_collinear ring idx hcol]
      linarith

/-- **C4 (amended)**: for a vertex whose adjacent edges are collinear
(interior angle exactly 180°, including the zero-length-edge case),
`calculateVertexAngle` returns 180, and for every *positive*
`minVertexAngle` neither `setLabels` nor `updateAllLabels` creates a
label for that vertex.  (At `minVertexAngle = 0` the strict filter
`angle > 180 - 0` does not fire and the collinear vertex *is* labeled —
see the counterexample.) -/
theorem claim_C4_angle_filter_amended (ring : List Pt) (idx : ℕ)
    (hcol : collinearAt ring idx) :
    calculateVertexAngle ring idx = 180 ∧
    (∀ (m : MapView) (sett : Settings) (st : ManagerState) (pid : ℕ),
      0 < sett.minVertexAngle →
      ∀ l ∈ (setLabels m sett st pid ring).labels,
        ¬(l.polygonId = pid ∧ l.vertexIndex = idx)) ∧
    (∀ (m : MapView) (sett : Settings) (st : ManagerState)
      (polygons : List Polygon) (pid : ℕ), 0 < sett.minVertexAngle →
      (∀ poly ∈ polygons, poly.id = pid → poly.hull = ring) →
      ∀ l ∈ (updateAllLabels m sett st polygons).labels,
        ¬(l.polygonId = pid ∧ l.vertexIndex = idx)) := by
  refine ⟨calculateVertexAngle_collinear ring idx hcol, ?_, ?_⟩
  · intro m sett st pid hmva
    exact setLabels_no_collinear m sett st pid ring idx hcol hmva
  · intro m sett st polygons pid hmva hpoly
    exact updateAllLabels_no_collinear m sett st polygons pid ring idx hcol
      hmva hpoly

/-- **C4 witness**: the amended claim at the concrete collinear ring
`ring3 = [(0,0), (0,1), (0,2)]`, middle vertex, default settings
(`minVertexAngle = 10`). -/
theorem claim_C4_angle_filter_amended_witness :
    calculateVertexAngle ring3 1 = 180 ∧
    ∀ l ∈ (setLabels mapCx defaultSettings emptyMgr 1 ring3).labels,
      ¬(l.polygonId = 1 ∧ l.vertexIndex = 1) := by
  have hcol : collinearAt ring3 1 := by
    unfold collinearAt ring3
    norm_num [Real.sqrt_one]
  exact ⟨(claim_C4_angle_filter_amended ring3 1 hcol).1,
    (claim_C4_angle_filter_amended ring3 1 hcol).2.1 mapCx defaultSettings
      emptyMgr 1 (by norm_num [defaultSettings])⟩

/-- Both endpoints of `ring2` are in `mapCx`'s viewport. -/
theorem containsB_ring2_0 : mapCx.bounds.containsB ⟨(0 : ℝ), (0 : ℝ)⟩ = true := by
  unfold Bounds.containsB mapCx
  norm_num

/-- Both endpoints of `ring2` are in `mapCx`'s viewport. -/
theorem containsB_ring2_1 : mapCx.bounds.containsB ⟨(0 : ℝ), (5 : ℝ)⟩ = true := by
  unfold Bounds.containsB mapCx
  norm_num

/-- Vertex angle at `ring2[0]` (both neighbour vectors coincide). -/
theorem angle_ring2_0 : calculateVertexAngle ring2 0 = 0 := by
  unfold calculateVertexAngle ring2
  norm_num [Real.sqrt_eq_zero', Real.arccos_one]

/-- Vertex angle at `ring2[1]` (both neighbour vectors coincide). -/
theorem angle_ring2_1 : calculateVertexAngle ring2 1 = 0 := by
  unfold calculateVertexAngle ring2
  norm_num [Real.sqrt_eq_zero', Real.arccos_one]

/-- The `vertexData` array of `ring2` under `mapCx`'s viewport. -/
theorem vertexDataOf_ring2 :
    vertexDataOf mapCx.bounds ring2 =
      [⟨⟨0, 0⟩, 0, 0, true⟩, ⟨⟨0, 5⟩, 1, 0, true⟩] := by
  have he : ring2.enum = [(0, (⟨0, 0⟩ : Pt)), (1, ⟨0, 5⟩)] := rfl
  unfold vertexDataOf
  rw [he]
  simp only [List.map_cons, List.map_nil]
  rw [show calculateVertexAngle ring2 (0, (⟨0, 0⟩ : Pt)).1 =
    calculateVertexAngle ring2 0 from rfl]
  rw [show calculateVertexAngle ring2 (1, (⟨0, 5⟩ : Pt)).1 =
    calculateVertexAngle ring2 1 from rfl]
  rw [angle_ring2_0, angle_ring2_1]
  simp [containsB_ring2_0, containsB_ring2_1]

/-- At `mapCx`'s zoom, 30 pixels converts to well under 5 degrees. -/
theorem minVD_mapCx_lt5 :
    pixelsToDegrees (metersPerPixel mapCx.bounds.centerLat mapCx.zoom) 30 < 5 := by
  unfold pixelsToDegrees metersPerPixel Bounds.centerLat mapCx
  norm_num [Real.cos_zero]

/-- **C5 counterexample**: a 2-point ring is *not* rejected by
`setLabels` — with the default settings both of its vertices (angle 0,
far apart, inside the viewport) receive labels, refuting the claim
that rings with fewer than 3 vertices produce no label. -/
theorem claim_C5_counterexample :
    ring2.length < 3 ∧
    (setLabels mapCx defaultSettings emptyMgr 1 ring2).labels.length = 2 := by
  refine ⟨by norm_num [ring2], ?_⟩
  simp only [setLabels]
  rw [if_neg (show ¬(ring2.length = 0) by norm_num [ring2])]
  have hfilter : List.filter
      (fun v : Pt => mapCx.bounds.containsB ⟨v.lat, v.lon⟩) ring2 = ring2 := by
    unfold ring2
    simp [List.filter_cons, containsB_ring2_0, containsB_ring2_1]
  rw [hfilter, if_neg (show ¬(ring2.length = 0) by norm_num [ring2])]
  rw [vertexDataOf_ring2]
  rw [List.foldl_cons, List.foldl_cons, List.foldl_nil]
  have hstep1 : ∀ (ctx : SelCtx) (ls : List Label), ctx.minVertexAngle = 10 →
      processVertexSet ctx ⟨[], ls⟩ ⟨⟨0, 0⟩, 0, 0, true⟩ =
        ⟨[⟨0, 0, 0⟩], ls ++ [mkLabelSet ctx ⟨⟨0, 0⟩, 0, 0, true⟩]⟩ := by
    intro ctx ls hmva
    unfold processVertexSet
    rw [if_neg (by norm_num), if_neg (by rw [hmva]; norm_num)]
    simp [List.findIdx?_nil]
  have hstep2 : ∀ (ctx : SelCtx) (ls : List Label), ctx.minVertexAngle = 10 →
      ctx.minVertexDistance =
        pixelsToDegrees (metersPerPixel mapCx.bounds.centerLat mapCx.zoom) 30 →
      processVertexSet ctx ⟨[⟨0, 0, 0⟩], ls⟩ ⟨⟨0, 5⟩, 1, 0, true⟩ =
        ⟨[⟨0, 0, 0⟩, ⟨0, 5, 0⟩],
          ls ++ [mkLabelSet ctx ⟨⟨0, 5⟩, 1, 0, true⟩]⟩ := by
    intro ctx ls hmva hmvd
    unfold processVertexSet
    rw [if_neg (by norm_num), if_neg (by rw [hmva]; norm_num)]
    have hc : closeTo ⟨⟨0, 5⟩, 1, 0, true⟩ ctx.minVertexDistance
        ⟨0, 0, 0⟩ = false := by
      unfold closeTo
      rw [hmvd]
      simp only [decide_eq_false_iff_not, not_lt]
      have h5 : Real.sqrt (((0 : ℝ) - 0) ^ 2 + ((5 : ℝ) - 0) ^ 2) = 5 := by
        rw [show ((0 : ℝ) - 0) ^ 2 + ((5 : ℝ) - 0) ^ 2 = 5 ^ 2 by norm_num,
          Real.sqrt_sq (by norm_num : (0 : ℝ) ≤ 5)]
      rw [h5]
      exact minVD_mapCx_lt5.le
    rw [show List.findIdx? (closeTo ⟨⟨0, 5⟩, 1, 0, true⟩ ctx.minVertexDistance)
        [⟨0, 0, 0⟩] = none by simp [List.findIdx?_cons, hc]]
    rfl
  rw [hstep1 _ _ rfl, hstep2 _ _ rfl rfl]
  simp [removeLabels, emptyMgr]

/-- The `updateAllLabels` body only pushes labels carrying its own
polygon id. -/
theorem processVertexUpdate_other_pid (ctx : SelCtx) (st : SelState)
    (d : VertexDatum) (pid : ℕ) (hctx : ctx.polygonId ≠ pid)
    (hst : ∀ l ∈ st.labels, l.polygonId ≠ pid) :
    ∀ l ∈ (processVertexUpdate ctx st d).labels, l.polygonId ≠ pid := by
  intro l hl
  unfold processVertexUpdate at hl
  split at hl
  · exact hst l hl
  · split at hl
    · exact hst l hl
    · have hpush : ∀ l', l' = mkLabelUpdate ctx d → l'.polygonId ≠ pid := by
        rintro l' rfl
        exact hctx
      split at hl
      · split at hl
        · rcases List.mem_append.mp hl with h' | h'
          · split at h'
            · exact hst l ((List.eraseIdx_sublist _ _).mem h')
            · exact hst l h'
          · exact hpush l (List.mem_singleton.mp h')
        · exact hst l hl
      · rcases List.mem_append.mp hl with h' | h'
        · exact hst l h'
        · exact hpush l (List.mem_singleton.mp h')

/-- **C5 (amended)**: only *empty* (or null) rings are rejected by the
entry points: `setLabels` with an empty vertex list removes the
polygon's labels and creates none, and `updateAllLabels` creates no
label for a polygon whose hull is empty.  (Rings of 1 or 2 points are
*not* rejected — a 2-point ring produces labels, see the
counterexample.) -/
theorem claim_C5_small_rings_amended :
    (∀ (m : MapView) (sett : Settings) (st : ManagerState) (pid : ℕ),
      ∀ l ∈ (setLabels m sett st pid []).labels, l.polygonId ≠ pid) ∧
    (∀ (m : MapView) (sett : Settings) (st : ManagerState)
      (polygons : List Polygon) (pid : ℕ),
      (∀ poly ∈ polygons, poly.id = pid → poly.hull = []) →
      ∀ l ∈ (updateAllLabels m sett st polygons).labels,
        l.polygonId ≠ pid) := by
  constructor
  · intro m sett st pid l hl
    simp only [setLabels, List.length_nil, if_true] at hl
    unfold removeLabels at hl
    simp only [List.mem_filter, decide_eq_true_eq] at hl
    exact hl.2
  · intro m sett st polygons pid hpoly l hl
    unfold updateAllLabels at hl
    simp only at hl
    refine foldl_inv_mem (P := fun acc : SelState =>
      ∀ l' ∈ acc.labels, l'.polygonId ≠ pid)
      polygons ?_ ⟨[], []⟩ (by intro l' hl'; simp at hl') l hl
    intro acc poly hmem hacc
    dsimp only
    split
    · exact hacc
    · split
      · exact hacc
      · rename_i hlen _
        have hid : poly.id ≠ pid := by
          intro he
          exact hlen (by rw [hpoly poly hmem he]; rfl)
        refine foldl_inv_mem (P := fun acc' : SelState =>
          ∀ l' ∈ acc'.labels, l'.polygonId ≠ pid) _ ?_ acc hacc
        intro s' d hd hs'
        exact processVertexUpdate_other_pid _ s' d pid hid hs'

/-- **C7**: two close vertices of the same polygon (distance below
`minVertexDistance`), both passing the angle filter, processed in
sequence by the `setLabels` selection body from a clean state: exactly
one label results.  If the later vertex B has a strictly smaller
(sharper) angle than the earlier accepted vertex A, A's acceptance and
its label are removed and B is labeled; otherwise B is rejected and
A's label stands. -/
theorem claim_C7_close_vertex_eviction (ctx : SelCtx) (dA dB : VertexDatum)
    (hA : dA.inBounds = true) (hB : dB.inBounds = true)
    (hAf : ¬dA.angle > 180 - ctx.minVertexAngle)
    (hBf : ¬dB.angle > 180 - ctx.minVertexAngle)
    (hclose : Real.sqrt ((dB.vertex.lat - dA.vertex.lat) ^ 2 +
      (dB.vertex.lon - dA.vertex.lon) ^ 2) < ctx.minVertexDistance) :
    (dB.angle < dA.angle →
      (processVertexSet ctx (processVertexSet ctx ⟨[], []⟩ dA) dB).labels =
        [mkLabelSet ctx dB]) ∧
    (¬dB.angle < dA.angle →
      (processVertexSet ctx (processVertexSet ctx ⟨[], []⟩ dA) dB).labels =
        [mkLabelSet ctx dA]) := by
  have hstA : processVertexSet ctx ⟨[], []⟩ dA =
      ⟨[⟨dA.vertex.lat, dA.vertex.lon, dA.angle⟩], [mkLabelSet ctx dA]⟩ := by
    unfold processVertexSet
    rw [if_neg (by rw [hA]; simp), if_neg hAf]
    simp [List.findIdx?_nil]
  rw [hstA]
  have hcB : closeTo dB ctx.minVertexDistance
      ⟨dA.vertex.lat, dA.vertex.lon, dA.angle⟩ = true := by
    unfold closeTo
    simp only [decide_eq_true_eq]
    exact hclose
  have hfind : List.findIdx? (closeTo dB ctx.minVertexDistance)
      [⟨dA.vertex.lat, dA.vertex.lon, dA.angle⟩] = some 0 := by
    simp [List.findIdx?_cons, hcB]
  constructor
  · intro hlt
    unfold processVertexSet
    rw [if_neg (by rw [hB]; simp), if_neg hBf, hfind]
    dsimp only
    rw [if_pos (show dB.angle <
      (([⟨dA.vertex.lat, dA.vertex.lon, dA.angle⟩] :
        List LabeledVertex).getD 0 default).angle from hlt)]
    have hfind2 : List.findIdx? (fun l : Label =>
        decide (l.polygonId = ctx.polygonId) &&
        decide (|l.vertexLatLng.lat -
          (([⟨dA.vertex.lat, dA.vertex.lon, dA.angle⟩] :
            List LabeledVertex).getD 0 default).lat| < 0.000001) &&
        decide (|l.vertexLatLng.lng -
          (([⟨dA.vertex.lat, dA.vertex.lon, dA.angle⟩] :
            List LabeledVertex).getD 0 default).lon| < 0.000001))
        [mkLabelSet ctx dA] = some 0 := by
      have h1 : (mkLabelSet ctx dA).polygonId = ctx.polygonId := rfl
      have h2 : (mkLabelSet ctx dA).vertexLatLng.lat = dA.vertex.lat := rfl
      have h3 : (mkLabelSet ctx dA).vertexLatLng.lng = dA.vertex.lon := rfl
      norm_num [List.findIdx?_cons, h1, h2, h3, sub_self, abs_zero]
    rw [hfind2]
    rfl
  · intro hge
    unfold processVertexSet
    rw [if_neg (by rw [hB]; simp), if_neg hBf, hfind]
    dsimp only
    rw [if_neg (show ¬dB.angle <
      (([⟨dA.vertex.lat, dA.vertex.lon, dA.angle⟩] :
        List LabeledVertex).getD 0 default).angle from hge)]

/-- **C7 witness**: the scenario of the claim — vertex A at 40°,
vertex B at 170°, half a unit apart with `minVertexDistance = 1`: only
A ends up labeled. -/
theorem claim_C7_close_vertex_eviction_witness :
    (processVertexSet ctx7 (processVertexSet ctx7 ⟨[], []⟩ dA7) dB7).labels =
      [mkLabelSet ctx7 dA7] := by
  have h5 : Real.sqrt ((dB7.vertex.lat - dA7.vertex.lat) ^ 2 +
      (dB7.vertex.lon - dA7.vertex.lon) ^ 2) < ctx7.minVertexDistance := by
    have : (dB7.vertex.lat - dA7.vertex.lat) ^ 2 +
        (dB7.vertex.lon - dA7.vertex.lon) ^ 2 = (1 / 2 : ℝ) ^ 2 := by
      norm_num [dA7, dB7]
    rw [this, Real.sqrt_sq (by norm_num : (0 : ℝ) ≤ 1 / 2)]
    norm_num [ctx7]
  exact (claim_C7_close_vertex_eviction ctx7 dA7 dB7 rfl rfl
    (by norm_num [dA7, ctx7]) (by norm_num [dB7, ctx7]) h5).2
    (by norm_num [dA7, dB7])

/-- A tick with no pending animation frame does nothing. -/
theorem tick_fixed (s : SchedState) (h : s.pending = false) : tick s = s := by
  unfold tick
  rw [if_pos h]

/-- `tick` never changes the settings. -/
theorem tick_settings (s : SchedState) : (tick s).settings = s.settings := by
  unfold tick
  split
  · rfl
  · split <;> rfl

/-- The iteration count produced by the inner step loop of `animate`. -/
theorem runSteps_iter (m : MapView) (sett : Settings) :
    ∀ (k count : ℕ) (sim : SimState) (tot : ℝ),
      (runSteps m sett k count sim tot).2.2 =
        min (count + k) (max count sett.iterations) := by
  intro k
  induction k with
  | zero =>
    intro count sim tot
    simp only [runSteps]
    omega
  | succ n ih =>
    intro count sim tot
    simp only [runSteps]
    split
    · rw [ih]
      omega
    · dsimp only
      omega

/-- A running tick advances the iteration count by up to
`stepsPerFrame`, clamped at the budget. -/
theorem tick_running_count (s : SchedState) (hp : ¬s.pending = false)
    (hrun : s.iterationCount < s.settings.iterations ∧
      s.stableCount < stableThreshold) :
    (tick s).iterationCount =
      min (s.iterationCount + stepsPerFrame) s.settings.iterations := by
  unfold tick
  rw [if_neg hp, if_pos hrun]
  dsimp only
  rw [runSteps_iter]
  omega

/-- A running tick keeps the pending flag. -/
theorem tick_running_pending (s : SchedState) (hp : ¬s.pending = false)
    (hrun : s.iterationCount < s.settings.iterations ∧
      s.stableCount < stableThreshold) :
    (tick s).pending = true := by
  unfold tick
  rw [if_neg hp, if_pos hrun]

/-- Once the iteration budget fits in `stepsPerFrame * j` more steps,
`j + 1` further ticks reach the halted state. -/
theorem ticks_halt : ∀ (j : ℕ) (s : SchedState),
    s.settings.iterations - s.iterationCount ≤ stepsPerFrame * j →
    (tick^[j + 1] s).pending = false := by
  intro j
  induction j with
  | zero =>
    intro s h
    rw [Function.iterate_one]
    by_cases hp : s.pending = false
    · rw [tick_fixed s hp]; exact hp
    · unfold tick
      rw [if_neg hp, if_neg (by unfold stepsPerFrame at h; omega)]
  | succ k ih =>
    intro s h
    by_cases hp : s.pending = false
    · rw [Function.iterate_fixed (tick_fixed s hp)]
      exact hp
    · by_cases hrun : s.iterationCount < s.settings.iterations ∧
          s.stableCount < stableThreshold
      · rw [Function.iterate_succ_apply]
        apply ih
        rw [tick_settings, tick_running_count s hp hrun]
        unfold stepsPerFrame at h ⊢
        omega
      · have hc : (tick s).pending = false := by
          unfold tick
          rw [if_neg hp, if_neg hrun]
        rw [Function.iterate_succ_apply,
          Function.iterate_fixed (tick_fixed _ hc)]
        exact hc

/-- A pending tick whose stability counter has reached the threshold
completes at once: no further solver steps, scheduler idle. -/
theorem tick_complete_of_stable (s : SchedState) (hp : s.pending = true)
    (hs : stableThreshold ≤ s.stableCount) :
    (tick s).pending = false ∧ (tick s).isSimulating = false ∧
      (tick s).sim = s.sim ∧ (tick s).iterationCount = s.iterationCount := by
  unfold tick
  rw [if_neg (by rw [hp]; simp),
    if_neg (fun h : _ ∧ _ => absurd h.2 (not_lt.mpr hs))]
  exact ⟨rfl, rfl, rfl, rfl⟩

/-- **C6**: a simulation run always terminates.  (i) For every
scheduler state, after `⌈iterations / stepsPerFrame⌉ + 1` tick firings
no animation frame is pending (the `+ 1` is the final tick that
observes exhaustion, runs no steps, and transitions to idle), so at
most `⌈iterations / stepsPerFrame⌉` ticks execute solver steps.
(ii) A non-pending scheduler is a fixed point — nothing runs again.
(iii) As soon as the convergence counter (incremented on each tick
whose batch-average energy is below the absolute floor `0.0001` or
changed by less than `0.00001`) reaches `stableThreshold`, the very
next tick halts without executing further steps — earlier than the
budget if the budget remains. -/
theorem claim_C6_termination :
    (∀ s : SchedState,
      (tick^[(s.settings.iterations + stepsPerFrame - 1) / stepsPerFrame + 1]
        s).pending = false) ∧
    (∀ s : SchedState, s.pending = false → tick s = s) ∧
    (∀ s : SchedState, s.pending = true → stableThreshold ≤ s.stableCount →
      (tick s).pending = false ∧ (tick s).isSimulating = false ∧
        (tick s).sim = s.sim ∧
        (tick s).iterationCount = s.iterationCount) := by
  refine ⟨?_, tick_fixed, tick_complete_of_stable⟩
  intro s
  apply ticks_halt
  unfold stepsPerFrame
  omega

/-- **C6 witness**: the bound at a fresh 0-label run with the default
200-iteration budget, and the early-stability halt at a state whose
counter just reached the threshold. -/
theorem claim_C6_termination_witness :
    (tick^[(schedCx0.settings.iterations + stepsPerFrame - 1) /
      stepsPerFrame + 1] schedCx0).pending = false ∧
    ((tick schedCx).pending = false ∧ (tick schedCx).isSimulating = false ∧
      (tick schedCx).sim = schedCx.sim ∧
      (tick schedCx).iterationCount = schedCx.iterationCount) :=
  ⟨claim_C6_termination.1 schedCx0,
    claim_C6_termination.2.2 schedCx rfl (by norm_num [schedCx, schedCx0,
      stableThreshold])⟩

/-- **C3 (bug exhibit)**: after `stopSimulation()` on a running
simulation the `isSimulating` flag does read Idle — but the `animate`
callback scheduled through `requestAnimationFrame` never consults that
flag, so the interrupted run still executes its solver steps (the
iteration count climbs from 0 to the full 3-step budget on the next
tick) and the completion callback (polygon-name refresh) still fires
on the tick after.  This contradicts the documented behaviour that
`stop()` halts physics "without running further steps or calling
completion callbacks" (the vestigial `clearInterval` in
`stopSimulation` targets a field the rAF-based `startSimulation` never
sets). -/
theorem claim_C3_stop_is_ineffective :
    schedC3.isSimulating = false ∧
    schedC3.iterationCount = 0 ∧
    (tick schedC3).iterationCount = 3 ∧
    (tick (tick schedC3)).namesRendered = true :=
  ⟨rfl, rfl, rfl, rfl⟩

/-- The pair force computed for the two coincident C9 labels: box
overlap push of half the doubled buffer on both axes plus the fixed
symmetric nudge for exactly coincident centers. -/
theorem pairForce_C9 :
    pairForce (mppSim mapCx.zoom) defaultSettings labelC9a labelC9b =
      ⟨pixelsToDegrees (mppSim mapCx.zoom) 5 +
          pixelsToDegrees (mppSim mapCx.zoom) 10,
        pixelsToDegrees (mppSim mapCx.zoom) 5 +
          pixelsToDegrees (mppSim mapCx.zoom) 10⟩ := by
  have hb : 0 < pixelsToDegrees (mppSim mapCx.zoom) 5 :=
    pixelsToDegrees_pos (mppSim_pos _) (by norm_num)
  unfold pairForce labelC9a labelC9b
  norm_num [Real.sqrt_zero, defaultSettings, pixelsToDegrees]
  rw [if_pos (show (0 : ℝ) ≤ mppSim mapCx.zoom * 5 / 111320 from
    div_nonneg (mul_nonneg (le_of_lt (mppSim_pos _)) (by norm_num))
      (by norm_num))]
  norm_num
  ring

/-- Net force on the first C9 label: only the pairwise term is active
(no ring vertices, spring skipped at zero distance, no polygon center,
leader-line push skipped at zero distance), applied with the minus
sign of the lower pair index. -/
theorem netForce_C9_0 :
    netForce (mppSim mapCx.zoom) defaultSettings simC9.labels 0 =
      ⟨-(pixelsToDegrees (mppSim mapCx.zoom) 5 +
          pixelsToDegrees (mppSim mapCx.zoom) 10),
        -(pixelsToDegrees (mppSim mapCx.zoom) 5 +
          pixelsToDegrees (mppSim mapCx.zoom) 10)⟩ := by
  have hg0 : simC9.labels.getD 0 default = labelC9a := rfl
  have hg1 : simC9.labels.getD 1 default = labelC9b := rfl
  have hg0' : simC9.labels[0]?.getD default = labelC9a := rfl
  have hg1' : simC9.labels[1]?.getD default = labelC9b := rfl
  have hav : allVerticesOf simC9.labels = [] := rfl
  have hlen : simC9.labels.length = 2 := rfl
  have ha1 : labelC9a.vertexLatLng.lat = 0 := rfl
  have ha2 : labelC9a.vertexLatLng.lng = 0 := rfl
  have ha3 : labelC9a.labelLatLng.lat = 0 := rfl
  have ha4 : labelC9a.labelLatLng.lng = 0 := rfl
  have ha5 : labelC9a.polygonVertices = ([] : List Pt) := rfl
  have ha6 : labelC9a.width = 0 := rfl
  have ha7 : labelC9a.height = 0 := rfl
  have ha8 : labelC9a.vertexIndex = 0 := rfl
  have hb1 : labelC9b.vertexLatLng.lat = 0 := rfl
  have hb2 : labelC9b.vertexLatLng.lng = 0 := rfl
  have hb3 : labelC9b.labelLatLng.lat = 0 := rfl
  have hb4 : labelC9b.labelLatLng.lng = 0 := rfl
  have hb5 : labelC9b.polygonVertices = ([] : List Pt) := rfl
  have hb6 : labelC9b.width = 0 := rfl
  have hb7 : labelC9b.height = 0 := rfl
  have hb8 : labelC9b.vertexIndex = 2 := rfl
  unfold netForce vertexRepForce pairNetForce springForce centerRepForce
    leaderForce
  rw [hav, hlen]
  rw [show List.range 2 = [0, 1] from rfl]
  norm_num [hg0, hg1, hg0', hg1', pairForce_C9, List.foldl_cons,
    List.foldl_nil, Vec.sub_def, Vec.zero_def, Vec.add_def, Vec.zero_lat,
    Vec.zero_lon, Real.sqrt_zero, ite_self, ha1, ha2, ha3, ha4, ha5, ha6,
    ha7, ha8, hb1, hb2, hb3, hb4, hb5, hb6, hb7, hb8]

/-- Net force on the second C9 label: the opposite push. -/
theorem netForce_C9_1 :
    netForce (mppSim mapCx.zoom) defaultSettings simC9.labels 1 =
      ⟨pixelsToDegrees (mppSim mapCx.zoom) 5 +
          pixelsToDegrees (mppSim mapCx.zoom) 10,
        pixelsToDegrees (mppSim mapCx.zoom) 5 +
          pixelsToDegrees (mppSim mapCx.zoom) 10⟩ := by
  have hg0 : simC9.labels.getD 0 default = labelC9a := rfl
  have hg1 : simC9.labels.getD 1 default = labelC9b := rfl
  have hg0' : simC9.labels[0]?.getD default = labelC9a := rfl
  have hg1' : simC9.labels[1]?.getD default = labelC9b := rfl
  have hav : allVerticesOf simC9.labels = [] := rfl
  have hlen : simC9.labels.length = 2 := rfl
  have ha1 : labelC9a.vertexLatLng.lat = 0 := rfl
  have ha2 : labelC9a.vertexLatLng.lng = 0 := rfl
  have ha3 : labelC9a.labelLatLng.lat = 0 := rfl
  have ha4 : labelC9a.labelLatLng.lng = 0 := rfl
  have ha5 : labelC9a.polygonVertices = ([] : List Pt) := rfl
  have ha6 : labelC9a.width = 0 := rfl
  have ha7 : labelC9a.height = 0 := rfl
  have ha8 : labelC9a.vertexIndex = 0 := rfl
  have hb1 : labelC9b.vertexLatLng.lat = 0 := rfl
  have hb2 : labelC9b.vertexLatLng.lng = 0 := rfl
  have hb3 : labelC9b.labelLatLng.lat = 0 := rfl
  have hb4 : labelC9b.labelLatLng.lng = 0 := rfl
  have hb5 : labelC9b.polygonVertices = ([] : List Pt) := rfl
  have hb6 : labelC9b.width = 0 := rfl
  have hb7 : labelC9b.height = 0 := rfl
  have hb8 : labelC9b.vertexIndex = 2 := rfl
  unfold netForce vertexRepForce pairNetForce springForce centerRepForce
    leaderForce
  rw [hav, hlen]
  rw [show List.range 2 = [0, 1] from rfl]
  norm_num [hg0, hg1, hg0', hg1', pairForce_C9, List.foldl_cons,
    List.foldl_nil, Vec.sub_def, Vec.zero_def, Vec.add_def, Vec.zero_lat,
    Vec.zero_lon, Real.sqrt_zero, ite_self, ha1, ha2, ha3, ha4, ha5, ha6,
    ha7, ha8, hb1, hb2, hb3, hb4, hb5, hb6, hb7, hb8]

/-- After one step the first C9 label has moved to `(-sepC9, -sepC9)`. -/
theorem simC9_step_pos0 :
    ((simulateStep mapCx defaultSettings simC9).1.labels.getD 0
        default).labelLatLng = ⟨-sepC9, -sepC9⟩ := by
  have hu : 0 < pixelsToDegrees (mppSim mapCx.zoom) 5 :=
    pixelsToDegrees_pos (mppSim_pos _) (by norm_num)
  have hu1 : pixelsToDegrees (mppSim mapCx.zoom) 5 < 1 := by
    rw [mppSim_eq]
    unfold pixelsToDegrees
    norm_num [mapCx]
  have h10 : pixelsToDegrees (mppSim mapCx.zoom) 10 =
      2 * pixelsToDegrees (mppSim mapCx.zoom) 5 := by
    unfold pixelsToDegrees; ring
  have h80 : pixelsToDegrees (mppSim mapCx.zoom) 80 =
      16 * pixelsToDegrees (mppSim mapCx.zoom) 5 := by
    unfold pixelsToDegrees; ring
  have hsep : sepC9 = 0.45 * pixelsToDegrees (mppSim mapCx.zoom) 5 := by
    unfold sepC9
    rw [h10]; ring
  rw [simulateStep_nonmanual_getD mapCx defaultSettings simC9 0
    (by simp [simC9]) rfl, integrateLabel_labelLatLng, netForce_C9_0]
  have hverlet : verletRaw defaultSettings
      ⟨-(pixelsToDegrees (mppSim mapCx.zoom) 5 +
          pixelsToDegrees (mppSim mapCx.zoom) 10),
        -(pixelsToDegrees (mppSim mapCx.zoom) 5 +
          pixelsToDegrees (mppSim mapCx.zoom) 10)⟩
      (simC9.labels.getD 0 default)
      (simC9.previousPositions.getD 0
        ⟨(simC9.labels.getD 0 default).labelLatLng.lat,
          (simC9.labels.getD 0 default).labelLatLng.lng⟩) =
      (0, 0, -sepC9, -sepC9) := by
    unfold verletRaw sepC9
    have hc1 : (simC9.labels.getD 0 default).labelLatLng.lat = 0 := rfl
    have hc2 : (simC9.labels.getD 0 default).labelLatLng.lng = 0 := rfl
    have hc1' : (simC9.labels[0]?.getD default).labelLatLng.lat = 0 := rfl
    have hc2' : (simC9.labels[0]?.getD default).labelLatLng.lng = 0 := rfl
    have hc3 : (simC9.previousPositions.getD 0
        ⟨(simC9.labels.getD 0 default).labelLatLng.lat,
          (simC9.labels.getD 0 default).labelLatLng.lng⟩) = (⟨0, 0⟩ : Vec) :=
      rfl
    rw [hc3]
    norm_num [hc1, hc2, hc1', hc2', Prod.ext_iff]
    ring
  rw [hverlet]
  dsimp only
  have hv : (simC9.labels.getD 0 default).vertexLatLng =
      (⟨0, 0⟩ : LatLng) := rfl
  rw [hv]
  have hanchor : anchorClamp
      (pixelsToDegrees (mppSim mapCx.zoom) defaultSettings.maxLabelDistance)
      (⟨0, 0⟩ : LatLng) (-sepC9) (-sepC9) = (-sepC9, -sepC9) := by
    unfold anchorClamp
    dsimp only
    rw [if_neg]
    push_neg
    have hle : (-sepC9 - 0) * (-sepC9 - 0) + (-sepC9 - 0) * (-sepC9 - 0) ≤
        (2 * sepC9) * (2 * sepC9) := by nlinarith [sq_nonneg sepC9]
    calc Real.sqrt ((-sepC9 - 0) * (-sepC9 - 0) +
          (-sepC9 - 0) * (-sepC9 - 0)) ≤
        Real.sqrt ((2 * sepC9) * (2 * sepC9)) := Real.sqrt_le_sqrt hle
      _ = |2 * sepC9| := Real.sqrt_mul_self_eq_abs _
      _ = 2 * sepC9 := abs_of_nonneg (by rw [hsep]; positivity)
      _ ≤ pixelsToDegrees (mppSim mapCx.zoom)
          defaultSettings.maxLabelDistance := by
        rw [show defaultSettings.maxLabelDistance = (80 : ℝ) from rfl, h80,
          hsep]
        linarith
  rw [hanchor]
  have hw : (simC9.labels.getD 0 default).width = 0 := rfl
  have hh : (simC9.labels.getD 0 default).height = 0 := rfl
  unfold boundsClamp
  rw [hw, hh]
  rw [show ((0 : ℝ) / 2 + 10) = 10 by norm_num]
  rw [show mapCx.bounds = ⟨-10, 10, -10, 10⟩ from rfl]
  dsimp only
  rw [min_eq_right (by rw [h10, hsep]; linarith),
    max_eq_right (by rw [h10, hsep]; linarith)]

/-- After one step the second C9 label has moved to `(sepC9, sepC9)`. -/
theorem simC9_step_pos1 :
    ((simulateStep mapCx defaultSettings simC9).1.labels.getD 1
        default).labelLatLng = ⟨sepC9, sepC9⟩ := by
  have hu : 0 < pixelsToDegrees (mppSim mapCx.zoom) 5 :=
    pixelsToDegrees_pos (mppSim_pos _) (by norm_num)
  have hu1 : pixelsToDegrees (mppSim mapCx.zoom) 5 < 1 := by
    rw [mppSim_eq]
    unfold pixelsToDegrees
    norm_num [mapCx]
  have h10 : pixelsToDegrees (mppSim mapCx.zoom) 10 =
      2 * pixelsToDegrees (mppSim mapCx.zoom) 5 := by
    unfold pixelsToDegrees; ring
  have h80 : pixelsToDegrees (mppSim mapCx.zoom) 80 =
      16 * pixelsToDegrees (mppSim mapCx.zoom) 5 := by
    unfold pixelsToDegrees; ring
  have hsep : sepC9 = 0.45 * pixelsToDegrees (mppSim mapCx.zoom) 5 := by
    unfold sepC9
    rw [h10]; ring
  rw [simulateStep_nonmanual_getD mapCx defaultSettings simC9 1
    (by simp [simC9]) rfl, integrateLabel_labelLatLng, netForce_C9_1]
  have hverlet : verletRaw defaultSettings
      ⟨pixelsToDegrees (mppSim mapCx.zoom) 5 +
          pixelsToDegrees (mppSim mapCx.zoom) 10,
        pixelsToDegrees (mppSim mapCx.zoom) 5 +
          pixelsToDegrees (mppSim mapCx.zoom) 10⟩
      (simC9.labels.getD 1 default)
      (simC9.previousPositions.getD 1
        ⟨(simC9.labels.getD 1 default).labelLatLng.lat,
          (simC9.labels.getD 1 default).labelLatLng.lng⟩) =
      (0, 0, sepC9, sepC9) := by
    unfold verletRaw sepC9
    have hc1 : (simC9.labels.getD 1 default).labelLatLng.lat = 0 := rfl
    have hc2 : (simC9.labels.getD 1 default).labelLatLng.lng = 0 := rfl
    have hc1' : (simC9.labels[1]?.getD default).labelLatLng.lat = 0 := rfl
    have hc2' : (simC9.labels[1]?.getD default).labelLatLng.lng = 0 := rfl
    have hc3 : (simC9.previousPositions.getD 1
        ⟨(simC9.labels.getD 1 default).labelLatLng.lat,
          (simC9.labels.getD 1 default).labelLatLng.lng⟩) = (⟨0, 0⟩ : Vec) :=
      rfl
    rw [hc3]
    norm_num [hc1, hc2, hc1', hc2', Prod.ext_iff]
    ring
  rw [hverlet]
  dsimp only
  have hv : (simC9.labels.getD 1 default).vertexLatLng =
      (⟨0, 0⟩ : LatLng) := rfl
  rw [hv]
  have hanchor : anchorClamp
      (pixelsToDegrees (mppSim mapCx.zoom) defaultSettings.maxLabelDistance)
      (⟨0, 0⟩ : LatLng) sepC9 sepC9 = (sepC9, sepC9) := by
    unfold anchorClamp
    dsimp only
    rw [if_neg]
    push_neg
    have hle : (sepC9 - 0) * (sepC9 - 0) + (sepC9 - 0) * (sepC9 - 0) ≤
        (2 * sepC9) * (2 * sepC9) := by nlinarith [sq_nonneg sepC9]
    calc Real.sqrt ((sepC9 - 0) * (sepC9 - 0) +
          (sepC9 - 0) * (sepC9 - 0)) ≤
        Real.sqrt ((2 * sepC9) * (2 * sepC9)) := Real.sqrt_le_sqrt hle
      _ = |2 * sepC9| := Real.sqrt_mul_self_eq_abs _
      _ = 2 * sepC9 := abs_of_nonneg (by rw [hsep]; positivity)
      _ ≤ pixelsToDegrees (mppSim mapCx.zoom)
          defaultSettings.maxLabelDistance := by
        rw [show defaultSettings.maxLabelDistance = (80 : ℝ) from rfl, h80,
          hsep]
        linarith
  rw [hanchor]
  have hw : (simC9.labels.getD 1 default).width = 0 := rfl
  have hh : (simC9.labels.getD 1 default).height = 0 := rfl
  unfold boundsClamp
  rw [hw, hh]
  rw [show ((0 : ℝ) / 2 + 10) = 10 by norm_num]
  rw [show mapCx.bounds = ⟨-10, 10, -10, 10⟩ from rfl]
  dsimp only
  rw [min_eq_right (by rw [h10, hsep]; linarith),
    max_eq_right (by rw [h10, hsep]; linarith)]

/-- **C9**: at the concrete state `simC9` — two non-manual labels with
*exactly* identical positions (zero separation) — one `simulateStep`
produces distinct finite positions: the pairwise term applies the
overlap push plus the fixed symmetric nudge for coincident centers
(with Newton's-third-law signs), moving the labels to the explicit
coordinates `±(sepC9, sepC9)`.  In this exact-real embedding every
produced coordinate is a real number, the code's division guards being
modelled verbatim, so no NaN/Infinity can arise. -/
theorem claim_C9_zero_separation_separates :
    (simC9.labels.getD 0 default).labelLatLng =
      (simC9.labels.getD 1 default).labelLatLng ∧
    ((simulateStep mapCx defaultSettings simC9).1.labels.getD 0
        default).labelLatLng = ⟨-sepC9, -sepC9⟩ ∧
    ((simulateStep mapCx defaultSettings simC9).1.labels.getD 1
        default).labelLatLng = ⟨sepC9, sepC9⟩ ∧
    ((simulateStep mapCx defaultSettings simC9).1.labels.getD 0
        default).labelLatLng ≠
      ((simulateStep mapCx defaultSettings simC9).1.labels.getD 1
        default).labelLatLng := by
  have hu : 0 < pixelsToDegrees (mppSim mapCx.zoom) 5 :=
    pixelsToDegrees_pos (mppSim_pos _) (by norm_num)
  have h10 : pixelsToDegrees (mppSim mapCx.zoom) 10 =
      2 * pixelsToDegrees (mppSim mapCx.zoom) 5 := by
    unfold pixelsToDegrees; ring
  have hpos : 0 < sepC9 := by
    unfold sepC9
    rw [h10]
    linarith
  refine ⟨rfl, simC9_step_pos0, simC9_step_pos1, ?_⟩
  rw [simC9_step_pos0, simC9_step_pos1]
  intro h
  have h1 : -sepC9 = sepC9 := congrArg LatLng.lat h
  linarith

/-- **C10**: `simulateStep` neither adds nor removes labels, and for
every label only `labelLatLng` (and the velocity / previous-position
tracking held next to the labels in `SimState`) can change: the
projection of the labels array onto all other fields (`key`,
`polygonId`, `vertexIndex`, anchor `vertexLatLng`, `text`, `width`,
`height`, ring snapshot `polygonVertices`, `manuallyPositioned`) is
exactly preserved, in order and in count. -/
theorem claim_C10_simulateStep_frame (m : MapView) (sett : Settings)
    (s : SimState) :
    (simulateStep m sett s).1.labels.map Label.static =
      s.labels.map Label.static := by
  rw [simulateStep_labels, List.map_map]
  have hcomp : (Label.static ∘ fun p : ℕ × Label =>
      if p.2.manuallyPositioned then p.2
      else (integrateLabel (mppSim m.zoom) sett m.bounds
        (netForce (mppSim m.zoom) sett s.labels p.1) p.2
        (s.previousPositions.getD p.1
          ⟨p.2.labelLatLng.lat, p.2.labelLatLng.lng⟩)).1) =
      (Label.static ∘ Prod.snd) := by
    funext p
    by_cases h : p.2.manuallyPositioned <;>
      simp [h, Function.comp, integrateLabel_static]
  rw [hcomp, ← List.map_map, List.enum_map_snd]

/-- A one-point "ring" has a degenerate (zero-length) adjacent edge, so
`calculateVertexAngle` returns 180 at its only vertex. -/
theorem angle_singleton : calculateVertexAngle [(⟨0, 0⟩ : Pt)] 0 = 180 := by
  unfold calculateVertexAngle
  norm_num [Real.sqrt_zero]

/-- The `vertexData` array of the one-point ring under `mapCx`'s
viewport. -/
theorem vertexDataOf_single :
    vertexDataOf mapCx.bounds [(⟨0, 0⟩ : Pt)] = [⟨⟨0, 0⟩, 0, 180, true⟩] := by
  have he : ([(⟨0, 0⟩ : Pt)]).enum = [(0, (⟨0, 0⟩ : Pt))] := rfl
  unfold vertexDataOf
  rw [he]
  simp only [List.map_cons, List.map_nil]
  rw [show calculateVertexAngle [(⟨0, 0⟩ : Pt)] (0, (⟨0, 0⟩ : Pt)).1 =
    calculateVertexAngle [(⟨0, 0⟩ : Pt)] 0 from rfl]
  rw [angle_singleton]
  simp [containsB_ring2_0]

/-- With the shallow-angle filter disabled, the `updateAllLabels` body
run from a clean state on the degenerate 180° vertex pushes its
label. -/
theorem processVertexUpdate_single (ctx : SelCtx)
    (hmva : ctx.minVertexAngle = 0) :
    processVertexUpdate ctx ⟨[], []⟩ ⟨⟨0, 0⟩, 0, 180, true⟩ =
      ⟨[⟨0, 0, 180⟩], [mkLabelUpdate ctx ⟨⟨0, 0⟩, 0, 180, true⟩]⟩ := by
  unfold processVertexUpdate
  rw [if_neg (by norm_num), if_neg (by rw [hmva]; norm_num)]
  simp [List.findIdx?_nil]

/-- Rebuilding from `stW` over the one-point polygon `polyW` with the
angle filter disabled yields exactly one label, and that label's key
carries the saved manual position `(5, 5)`. -/
theorem updateW_getD :
    ((updateAllLabels mapCx settW stW [polyW]).labels.getD 0 default ∈
      (updateAllLabels mapCx settW stW [polyW]).labels) ∧
    savedPositionsOf stW
      ((updateAllLabels mapCx settW stW [polyW]).labels.getD 0 default).key =
      some ⟨5, 5⟩ := by
  have hfil : List.filter (fun v : Pt => mapCx.bounds.containsB ⟨v.lat, v.lon⟩)
      [(⟨0, 0⟩ : Pt)] = [⟨0, 0⟩] := by
    simp [List.filter_cons, containsB_ring2_0]
  simp only [updateAllLabels]
  rw [List.foldl_cons, List.foldl_nil]
  simp only [polyW]
  rw [if_neg (show ¬(List.length [(⟨0, 0⟩ : Pt)] = 0) by norm_num)]
  rw [hfil]
  rw [vertexDataOf_single, List.foldl_cons, List.foldl_nil]
  rw [processVertexUpdate_single _ rfl]
  rw [if_neg (show ¬(List.length [(⟨0, 0⟩ : Pt)] = 0) by norm_num)]
  simp only [List.getD_cons_zero]
  exact ⟨List.mem_singleton_self _, rfl⟩

/-- **C1 witness**: (a) the manually positioned label of `simW` still
sits at `(3, 4)` after two simulation steps; (b) rebuilding over
`polyW` from the manager state `stW` (whose key `(1, 0)` was dragged to
`(5, 5)`) yields a label restored to exactly `(5, 5)` with the manual
flag set. -/
theorem claim_C1_manual_position_invariance_witness :
    (((simulateStepState mapCx defaultSettings)^[2] simW).labels.getD 0
      default).labelLatLng = (⟨3, 4⟩ : LatLng) ∧
    ((updateAllLabels mapCx settW stW [polyW]).labels.getD 0
      default).labelLatLng = (⟨5, 5⟩ : LatLng) ∧
    ((updateAllLabels mapCx settW stW [polyW]).labels.getD 0
      default).manuallyPositioned = true := by
  have h := claim_C1_manual_position_invariance.2 mapCx settW stW [polyW] _
    updateW_getD.1 ⟨5, 5⟩ updateW_getD.2
  exact ⟨(claim_C1_manual_position_invariance.1 mapCx defaultSettings simW 0 2
    rfl).trans rfl, h.1, h.2⟩

/-- `setLabels` with an empty ring on the manager state `stW2` keeps
polygon 2's label, so the result's head is a genuine member. -/
theorem setW2_mem :
    (setLabels mapCx defaultSettings stW2 1 []).labels.getD 0 default ∈
      (setLabels mapCx defaultSettings stW2 1 []).labels := by
  have hs : (setLabels mapCx defaultSettings stW2 1 []).labels = [lbl2W] := rfl
  rw [hs]
  exact List.mem_singleton_self _

/-- Rebuilding from `stW` over an empty-hulled polygon 1 and the
one-point polygon 2 yields exactly one label (polygon 2's), so the
result's head is a genuine member. -/
theorem updateW2_mem :
    (updateAllLabels mapCx settW stW [(⟨1, []⟩ : Polygon), polyW2]).labels.getD
      0 default ∈
      (updateAllLabels mapCx settW stW [(⟨1, []⟩ : Polygon), polyW2]).labels := by
  have hfil : List.filter (fun v : Pt => mapCx.bounds.containsB ⟨v.lat, v.lon⟩)
      [(⟨0, 0⟩ : Pt)] = [⟨0, 0⟩] := by
    simp [List.filter_cons, containsB_ring2_0]
  simp only [updateAllLabels]
  rw [List.foldl_cons]
  rw [if_pos (show List.length (Polygon.hull ⟨1, []⟩) = 0 from rfl)]
  rw [List.foldl_cons, List.foldl_nil]
  simp only [polyW2]
  rw [if_neg (show ¬(List.length [(⟨0, 0⟩ : Pt)] = 0) by norm_num)]
  rw [hfil]
  rw [vertexDataOf_single, List.foldl_cons, List.foldl_nil]
  rw [processVertexUpdate_single _ rfl]
  rw [if_neg (show ¬(List.length [(⟨0, 0⟩ : Pt)] = 0) by norm_num)]
  simp only [List.getD_cons_zero]
  exact List.mem_singleton_self _

/-- **C5 witness (amended)**: with an empty ring for polygon 1,
`setLabels` leaves only labels of other polygons (here polygon 2's
label survives at the head), and `updateAllLabels` over an
empty-hulled polygon 1 plus a real polygon 2 produces only labels of
polygons other than 1. -/
theorem claim_C5_small_rings_amended_witness :
    ((setLabels mapCx defaultSettings stW2 1 []).labels.getD 0
      default).polygonId ≠ 1 ∧
    ((updateAllLabels mapCx settW stW [(⟨1, []⟩ : Polygon), polyW2]).labels.getD
      0 default).polygonId ≠ 1 := by
  refine ⟨claim_C5_small_rings_amended.1 mapCx defaultSettings stW2 1 _
    setW2_mem, ?_⟩
  refine claim_C5_small_rings_amended.2 mapCx settW stW
    [(⟨1, []⟩ : Polygon), polyW2] 1 ?_ _ updateW2_mem
  intro poly hp hid
  rcases List.mem_cons.mp hp with rfl | hp2
  · rfl
  · rw [List.mem_singleton.mp hp2] at hid
    exact absurd hid (by norm_num [polyW2])

/-- Square root of 4. -/
theorem sqrt_four : Real.sqrt (4 : ℝ) = 2 := by
  rw [show (4 : ℝ) = 2 ^ 2 by norm_num, Real.sqrt_sq (by norm_num : (0 : ℝ) ≤ 2)]

/-- Both inner points of `ring3` are in `mapCx`'s viewport. -/
theorem containsB_ring3_1 : mapCx.bounds.containsB ⟨(0 : ℝ), (1 : ℝ)⟩ = true := by
  unfold Bounds.containsB mapCx
  norm_num

/-- The far endpoint of `ring3` is in `mapCx`'s viewport. -/
theorem containsB_ring3_2 : mapCx.bounds.containsB ⟨(0 : ℝ), (2 : ℝ)⟩ = true := by
  unfold Bounds.containsB mapCx
  norm_num

/-- Vertex angle at `ring3[0]` (both neighbours lie in the same
direction along the line). -/
theorem angle_ring3_0 : calculateVertexAngle ring3 0 = 0 := by
  unfold calculateVertexAngle ring3
  norm_num [show Int.toNat 2 = 2 from rfl, sqrt_four, Real.sqrt_one,
    Real.arccos_one]

/-- Vertex angle at `ring3[2]` (both neighbours lie in the same
direction along the line). -/
theorem angle_ring3_2 : calculateVertexAngle ring3 2 = 0 := by
  unfold calculateVertexAngle ring3
  norm_num [sqrt_four, Real.sqrt_one, Real.arccos_one]

/-- Vertex angle at the middle vertex `ring3[1]` is exactly 180°. -/
theorem angle_ring3_1 : calculateVertexAngle ring3 1 = 180 := by
  refine calculateVertexAngle_collinear ring3 1 ?_
  unfold collinearAt ring3
  norm_num [Real.sqrt_one]

/-- The `vertexData` array of `ring3` under `mapCx`'s viewport. -/
theorem vertexDataOf_ring3 :
    vertexDataOf mapCx.bounds ring3 =
      [⟨⟨0, 0⟩, 0, 0, true⟩, ⟨⟨0, 1⟩, 1, 180, true⟩, ⟨⟨0, 2⟩, 2, 0, true⟩] := by
  have he : ring3.enum = [(0, (⟨0, 0⟩ : Pt)), (1, ⟨0, 1⟩), (2, ⟨0, 2⟩)] := rfl
  unfold vertexDataOf
  rw [he]
  simp only [List.map_cons, List.map_nil]
  rw [show calculateVertexAngle ring3 (0, (⟨0, 0⟩ : Pt)).1 =
    calculateVertexAngle ring3 0 from rfl]
  rw [show calculateVertexAngle ring3 (1, (⟨0, 1⟩ : Pt)).1 =
    calculateVertexAngle ring3 1 from rfl]
  rw [show calculateVertexAngle ring3 (2, (⟨0, 2⟩ : Pt)).1 =
    calculateVertexAngle ring3 2 from rfl]
  rw [angle_ring3_0, angle_ring3_1, angle_ring3_2]
  simp [containsB_ring2_0, containsB_ring3_1, containsB_ring3_2]

/-- At `mapCx`'s zoom, 30 pixels converts to well under 1 degree. -/
theorem minVD_mapCx_lt1 :
    pixelsToDegrees (metersPerPixel mapCx.bounds.centerLat mapCx.zoom) 30 < 1 := by
  unfold pixelsToDegrees metersPerPixel Bounds.centerLat mapCx
  norm_num [Real.cos_zero]

/-- **C4 counterexample**: the original claim fails at
`minVertexAngle = 0` (which the claim's "for every minVertexAngle >= 0"
includes): on the collinear ring `ring3` the middle vertex has angle
exactly 180°, yet `setLabels` under `settW` *does* create a label for
it (the strict filter `angle > 180 - 0` never fires). -/
theorem claim_C4_counterexample :
    settW.minVertexAngle = 0 ∧
    calculateVertexAngle ring3 1 = 180 ∧
    ((setLabels mapCx settW emptyMgr 1 ring3).labels.getD 1
      default).polygonId = 1 ∧
    ((setLabels mapCx settW emptyMgr 1 ring3).labels.getD 1
      default).vertexIndex = 1 := by
  have hstepA : ∀ (ctx : SelCtx) (ls : List Label), ctx.minVertexAngle = 0 →
      processVertexSet ctx ⟨[], ls⟩ ⟨⟨0, 0⟩, 0, 0, true⟩ =
        ⟨[⟨0, 0, 0⟩], ls ++ [mkLabelSet ctx ⟨⟨0, 0⟩, 0, 0, true⟩]⟩ := by
    intro ctx ls hmva
    unfold processVertexSet
    rw [if_neg (by norm_num), if_neg (by rw [hmva]; norm_num)]
    simp [List.findIdx?_nil]
  have hstepB : ∀ (ctx : SelCtx) (ls : List Label), ctx.minVertexAngle = 0 →
      ctx.minVertexDistance =
        pixelsToDegrees (metersPerPixel mapCx.bounds.centerLat mapCx.zoom) 30 →
      processVertexSet ctx ⟨[⟨0, 0, 0⟩], ls⟩ ⟨⟨0, 1⟩, 1, 180, true⟩ =
        ⟨[⟨0, 0, 0⟩, ⟨0, 1, 180⟩],
          ls ++ [mkLabelSet ctx ⟨⟨0, 1⟩, 1, 180, true⟩]⟩ := by
    intro ctx ls hmva hmvd
    unfold processVertexSet
    rw [if_neg (by norm_num), if_neg (by rw [hmva]; norm_num)]
    have hc : closeTo ⟨⟨0, 1⟩, 1, 180, true⟩ ctx.minVertexDistance
        ⟨0, 0, 0⟩ = false := by
      unfold closeTo
      rw [hmvd]
      simp only [decide_eq_false_iff_not, not_lt]
      have h1 : Real.sqrt (((0 : ℝ) - 0) ^ 2 + ((1 : ℝ) - 0) ^ 2) = 1 := by
        rw [show ((0 : ℝ) - 0) ^ 2 + ((1 : ℝ) - 0) ^ 2 = 1 ^ 2 by norm_num,
          Real.sqrt_sq (by norm_num : (0 : ℝ) ≤ 1)]
      rw [h1]
      exact minVD_mapCx_lt1.le
    rw [show List.findIdx? (closeTo ⟨⟨0, 1⟩, 1, 180, true⟩ ctx.minVertexDistance)
        [⟨0, 0, 0⟩] = none by simp [List.findIdx?_cons, hc]]
    rfl
  have hstepC : ∀ (ctx : SelCtx) (ls : List Label), ctx.minVertexAngle = 0 →
      ctx.minVertexDistance =
        pixelsToDegrees (metersPerPixel mapCx.bounds.centerLat mapCx.zoom) 30 →
      processVertexSet ctx ⟨[⟨0, 0, 0⟩, ⟨0, 1, 180⟩], ls⟩ ⟨⟨0, 2⟩, 2, 0, true⟩ =
        ⟨[⟨0, 0, 0⟩, ⟨0, 1, 180⟩, ⟨0, 2, 0⟩],
          ls ++ [mkLabelSet ctx ⟨⟨0, 2⟩, 2, 0, true⟩]⟩ := by
    intro ctx ls hmva hmvd
    unfold processVertexSet
    rw [if_neg (by norm_num), if_neg (by rw [hmva]; norm_num)]
    have hc1 : closeTo ⟨⟨0, 2⟩, 2, 0, true⟩ ctx.minVertexDistance
        ⟨0, 0, 0⟩ = false := by
      unfold closeTo
      rw [hmvd]
      simp only [decide_eq_false_iff_not, not_lt]
      have h2 : Real.sqrt (((0 : ℝ) - 0) ^ 2 + ((2 : ℝ) - 0) ^ 2) = 2 := by
        rw [show ((0 : ℝ) - 0) ^ 2 + ((2 : ℝ) - 0) ^ 2 = 2 ^ 2 by norm_num,
          Real.sqrt_sq (by norm_num : (0 : ℝ) ≤ 2)]
      rw [h2]
      exact minVD_mapCx_lt1.le.trans (by norm_num)
    have hc2 : closeTo ⟨⟨0, 2⟩, 2, 0, true⟩ ctx.minVertexDistance
        ⟨0, 1, 180⟩ = false := by
      unfold closeTo
      rw [hmvd]
      simp only [decide_eq_false_iff_not, not_lt]
      have h1 : Real.sqrt (((0 : ℝ) - 0) ^ 2 + ((2 : ℝ) - 1) ^ 2) = 1 := by
        rw [show ((0 : ℝ) - 0) ^ 2 + ((2 : ℝ) - 1) ^ 2 = 1 ^ 2 by norm_num,
          Real.sqrt_sq (by norm_num : (0 : ℝ) ≤ 1)]
      rw [h1]
      exact minVD_mapCx_lt1.le
    rw [show List.findIdx? (closeTo ⟨⟨0, 2⟩, 2, 0, true⟩ ctx.minVertexDistance)
        [⟨0, 0, 0⟩, ⟨0, 1, 180⟩] = none by
      simp [List.findIdx?_cons, hc1, hc2]]
    rfl
  have key : ((setLabels mapCx settW emptyMgr 1 ring3).labels.getD 1
        default).polygonId = 1 ∧
      ((setLabels mapCx settW emptyMgr 1 ring3).labels.getD 1
        default).vertexIndex = 1 := by
    simp only [setLabels]
    rw [if_neg (show ¬(ring3.length = 0) by norm_num [ring3])]
    have hfilter : List.filter
        (fun v : Pt => mapCx.bounds.containsB ⟨v.lat, v.lon⟩) ring3 = ring3 := by
      unfold ring3
      simp [List.filter_cons, containsB_ring2_0, containsB_ring3_1,
        containsB_ring3_2]
    rw [hfilter, if_neg (show ¬(ring3.length = 0) by norm_num [ring3])]
    rw [vertexDataOf_ring3]
    rw [List.foldl_cons, List.foldl_cons, List.foldl_cons, List.foldl_nil]
    rw [hstepA _ _ rfl, hstepB _ _ rfl rfl, hstepC _ _ rfl rfl]
    constructor <;> simp [removeLabels, emptyMgr, mkLabelSet]
  exact ⟨rfl, angle_ring3_1, key.1, key.2⟩
